import Mathlib

/-!
Verification of the xyz-editor collision/rendering core.

Shallow embedding of:
* `CollisionHandler` (phase-1 world-space registration and phase-2 screen-space
  resolution) from the display package,
* `addExtrude` / `addExterior` (extrusion side-wall emission),
* `VectorTileFeature.prototype.loadGeometry` (MVT geometry command decoding).

JS numbers are modelled as rationals (`ℚ`); typed-array buffers as functions
`ℕ → ℕ`; the mutable handler state is threaded explicitly.
-/

namespace XyzMaps

/-- Axis-aligned bounding box (`BBox` in the collision handler source). -/
structure BBox where
  minX : ℚ
  maxX : ℚ
  minY : ℚ
  maxY : ℚ
deriving DecidableEq, Repr

/-- Reference into a GPU attribute buffer: buffer index into the store plus
the `start`/`stop` byte range whose visibility bit is toggled. -/
structure Attr where
  buffer : ℕ
  start : ℕ
  stop : ℕ
deriving DecidableEq, Repr

/-- One candidate label/icon placement (`CollisionData` in the source).
`slope = none` models a missing (`undefined`) slope argument. -/
structure CollisionData where
  boxes : List BBox
  attrs : List Attr
  priority : ℚ
  cx : ℚ
  cy : ℚ
  cz : ℚ
  offsetX : ℚ
  offsetY : ℚ
  halfWidth : ℚ
  halfHeight : ℚ
  slope : Option (ℚ × ℚ)
deriving DecidableEq, Repr

/-- Closed-interval overlap test of two boxes, exactly the condition used in
`CollisionHandler.intersects`. -/
def boxesIntersect (bbox1 bbox2 : BBox) : Bool :=
  decide (bbox1.minX ≤ bbox2.maxX) && decide (bbox2.minX ≤ bbox1.maxX) &&
  decide (bbox1.minY ≤ bbox2.maxY) && decide (bbox2.minY ≤ bbox1.maxY)

namespace CollisionHandler

/-- `CollisionHandler.intersects(box1, data)`: does any box of `box1` overlap
any box of any entry of `data` (closed intervals)? -/
def intersects (box1 : CollisionData) (data : List CollisionData) : Bool :=
  data.any fun d => d.boxes.any fun bbox2 => box1.boxes.any fun bbox1 =>
    boxesIntersect bbox1 bbox2

/-- `CollisionHandler.updateBBoxes(cx, cy, slope, w, h, boxes, result)`:
fills `result[0..boxes]` (inclusive, hence `boxes + 1` boxes) with squares of
half-extents `w`/`h` whose centers are spread along the slope vector. -/
def updateBBoxes (cx cy : ℚ) (slope : ℚ × ℚ) (w h : ℚ) (boxes : ℕ) : List BBox :=
  (List.range (boxes + 1)).map fun (i : ℕ) =>
    let relPos : ℚ := ((i : ℚ) / (boxes : ℚ) - 1/2) * (3/4)
    let x := slope.1 * relPos + cx
    let y := slope.2 * relPos + cy
    { minX := x - w, maxX := x + w, minY := y - h, maxY := y + h }

/-- Tile identity: grid position `x`, `y` at zoom `z`. -/
structure Tile where
  x : ℕ
  y : ℕ
  z : ℕ
deriving DecidableEq, Repr

/-- The fixed 4px pad applied to every collision box (`boxBuffer` in
`CollisionHandler.insert`). -/
def boxBuffer : ℚ := 4

/-- The pure box-construction part of `CollisionHandler.insert`: alignment of
256-tiles onto the 512 grid, 4px padding, and the slope-chain splitting of
elongated slope-aligned candidates. -/
def mkCollisionData (cx0 cy0 cz offsetX offsetY halfWidth0 halfHeight0 : ℚ)
    (tile : Tile) (tileSize0 : ℕ) (priority : ℚ) (slope : Option (ℚ × ℚ)) :
    CollisionData :=
  -- align to 512er tile-grid
  let cx := if tileSize0 = 256 then cx0 + ((tile.x % 2 : ℕ) : ℚ) * (tileSize0 : ℚ) else cx0
  let cy := if tileSize0 = 256 then cy0 + ((tile.y % 2 : ℕ) : ℚ) * (tileSize0 : ℚ) else cy0
  let tileSize := if tileSize0 = 256 then tileSize0 * 2 else tileSize0
  let tX := if tileSize0 = 256 then tile.x / 2 else tile.x
  let tY := if tileSize0 = 256 then tile.y / 2 else tile.y
  let tileX : ℚ := (tX : ℚ) * (tileSize : ℚ) + offsetX
  let tileY : ℚ := (tY : ℚ) * (tileSize : ℚ) + offsetY
  let halfWidth := halfWidth0 + boxBuffer
  let halfHeight := halfHeight0 + boxBuffer
  let mn := min halfWidth halfHeight
  let mx := max halfWidth halfHeight
  let aspect : ℤ := ⌊mx / mn⌋
  let chain := slope.isSome && decide ((3 : ℚ)/2 < (aspect : ℚ))
  let boxes : List BBox :=
    match slope with
    | some s =>
      if (3 : ℚ)/2 < (aspect : ℚ) then
        updateBBoxes (cx + tileX) (cy + tileY) s mn mn (⌊(aspect : ℚ) * (7/10)⌋).toNat
      else
        [{ minX := tileX + cx - halfWidth, maxX := tileX + cx + halfWidth,
           minY := tileY + cy - halfHeight, maxY := tileY + cy + halfHeight }]
    | none =>
      [{ minX := tileX + cx - halfWidth, maxX := tileX + cx + halfWidth,
         minY := tileY + cy - halfHeight, maxY := tileY + cy + halfHeight }]
  { boxes := boxes
    attrs := []
    priority := priority
    cx := cx
    cy := cy
    cz := cz
    offsetX := offsetX
    offsetY := offsetY
    halfWidth := if chain then mn else halfWidth
    halfHeight := if chain then mn else halfHeight
    slope := slope }

/-- The world-pixel x anchor computed by `insert` before box construction:
`cx` after 256→512 alignment plus `tileX * tileSize + offsetX`. -/
def anchorX (cx ox : ℚ) (tX sz : ℕ) : ℚ :=
  (if sz = 256 then cx + ((tX % 2 : ℕ) : ℚ) * (sz : ℚ) else cx) +
  ((((if sz = 256 then tX / 2 else tX) : ℕ) : ℚ) *
    (((if sz = 256 then sz * 2 else sz) : ℕ) : ℚ) + ox)

/-- The world-pixel y anchor computed by `insert` before box construction. -/
def anchorY (cy oy : ℚ) (tY sz : ℕ) : ℚ :=
  (if sz = 256 then cy + ((tY % 2 : ℕ) : ℚ) * (sz : ℚ) else cy) +
  ((((if sz = 256 then tY / 2 else tY) : ℕ) : ℚ) *
    (((if sz = 256 then sz * 2 else sz) : ℕ) : ℚ) + oy)

/-- `Math.floor(max / min)` of the padded half-extents (the `aspectRatio`
value first computed by `insert`). -/
def aspectOf (hw hh : ℚ) : ℤ :=
  ⌊max (hw + boxBuffer) (hh + boxBuffer) / min (hw + boxBuffer) (hh + boxBuffer)⌋

/-- The `boxes` argument passed to `updateBBoxes` in the slope-chain branch:
`Math.floor(aspectRatio * 0.7)` (the chain then has this value plus one
sub-boxes). -/
def chainCount (hw hh : ℚ) : ℕ :=
  (⌊((aspectOf hw hh : ℤ) : ℚ) * (7/10)⌋).toNat

/-- Relative position of sub-box `i` of a chain of `count + 1` sub-boxes along
the slope vector (`(i / boxes - 0.5) * .75` in `updateBBoxes`). -/
def relPos (i count : ℕ) : ℚ :=
  ((i : ℚ) / (count : ℚ) - 1/2) * (3/4)

/-- The batch state built by `initTile` and mutated by `insert`
(`curLayerTileCollision` in the source), with the `updated` flag. -/
structure LayerTileCollision where
  tileKey : String
  dataKey : String
  data : List CollisionData
  existing : List (String × List CollisionData)
deriving Repr

/-- The accept/reject step of `CollisionHandler.insert` on an already-built
candidate: reject if it intersects the batch data or any existing/neighbour
entry, otherwise append it to the batch and set `updated`. -/
def insertCD (collisionData : CollisionData) (cur : LayerTileCollision) (updated : Bool) :
    Option CollisionData × LayerTileCollision × Bool :=
  if intersects collisionData cur.data then
    (none, cur, updated)
  else if cur.existing.any fun e => intersects collisionData e.2 then
    (none, cur, updated)
  else
    (some collisionData, { cur with data := cur.data ++ [collisionData] }, true)

/-- `CollisionHandler.insert(...)`: builds the candidate boxes, rejects the
candidate if it intersects the batch data or any existing/neighbour entry,
otherwise appends it to the batch and sets `updated`. Returns the accepted
`CollisionData` (`none` models the JS `false` return). -/
def insert (cx cy cz offsetX offsetY halfWidth halfHeight : ℚ)
    (tile : Tile) (tileSize : ℕ) (priority : ℚ) (slope : Option (ℚ × ℚ))
    (cur : LayerTileCollision) (updated : Bool) :
    Option CollisionData × LayerTileCollision × Bool :=
  insertCD
    (mkCollisionData cx cy cz offsetX offsetY halfWidth halfHeight tile tileSize priority slope)
    cur updated

/-- Arguments of one `insert` call, used to state batch-level invariants. -/
structure InsertReq where
  cx : ℚ
  cy : ℚ
  cz : ℚ
  offsetX : ℚ
  offsetY : ℚ
  halfWidth : ℚ
  halfHeight : ℚ
  tile : Tile
  tileSize : ℕ
  priority : ℚ
  slope : Option (ℚ × ℚ)

/-- `insert` applied to a request record. -/
def insertReq (r : InsertReq) (cur : LayerTileCollision) (updated : Bool) :
    Option CollisionData × LayerTileCollision × Bool :=
  insert r.cx r.cy r.cz r.offsetX r.offsetY r.halfWidth r.halfHeight
    r.tile r.tileSize r.priority r.slope cur updated

/-- A sequence of `insert` calls within one `initTile`/`completeTile` batch. -/
def runInserts (reqs : List InsertReq) (cur : LayerTileCollision) (updated : Bool) :
    LayerTileCollision × Bool :=
  reqs.foldl (fun st r => let res := insertReq r st.1 st.2; (res.2.1, res.2.2))
    (cur, updated)

/-- A display layer, as far as the collision handler reads it: its numeric id
and its tile size (256 or 512). -/
structure Layer where
  id : ℕ
  tileSize : ℕ
deriving DecidableEq, Repr

/-- `CollisionHandler.getTileCacheKey`: 256-size layers fold onto the parent
512 tile by dropping the last quadkey digit. -/
def getTileCacheKey (quadkey : String) (layer : Layer) : String :=
  if layer.tileSize = 256 then quadkey.dropRight 1 else quadkey

/-- `CollisionHandler.getDataKey`: per-layer-per-tile key `layerId-quadkey`. -/
def getDataKey (quadkey : String) (layer : Layer) : String :=
  toString layer.id ++ "-" ++ quadkey

/-- Lookup in a JS object / `Map` modelled as an association list. -/
def assocGet {α : Type} : List (String × α) → String → Option α
  | [], _ => none
  | e :: rest, k => if e.1 = k then some e.2 else assocGet rest k

/-- Key assignment in a JS object / `Map` modelled as an association list:
replace the entry if the key is present, else append it. -/
def assocSet {α : Type} (m : List (String × α)) (k : String) (v : α) :
    List (String × α) :=
  if m.any fun e => decide (e.1 = k) then
    m.map fun e => if e.1 = k then (k, v) else e
  else
    m ++ [(k, v)]

/-- Key deletion in a JS object / `Map` modelled as an association list. -/
def assocDelete {α : Type} (m : List (String × α)) (k : String) :
    List (String × α) :=
  m.filter fun e => decide (¬e.1 = k)

/-- Per-tile-cache-key collision data: `dataKey ↦ CollisionData[]`. -/
abbrev CollisionDataMap := List (String × List CollisionData)

/-- The collision tile cache `this.tiles`: `tileCacheKey ↦ CollisionDataMap`. -/
abbrev TilesMap := List (String × CollisionDataMap)

/-- Modelled from the spec: `tileUtils.tileXYToQuadKey` lives in the core
package outside `src/`. Per the spec a quadkey is the string of `z` base-4
digits of the tile path, digit `j` (most significant first) being
`bit(x, z-1-j) + 2*bit(y, z-1-j)`; integer coordinates (which adjacent-tile
lookups may make negative) take their two's-complement bits, matching the JS
shift-and-mask. -/
def tileXYToQuadKey (z : ℕ) (y x : ℤ) : String :=
  String.mk ((List.range z).map fun (j : ℕ) =>
    let dx := (x.ediv (2 ^ (z - 1 - j))).emod 2
    let dy := (y.ediv (2 ^ (z - 1 - j))).emod 2
    Char.ofNat (48 + (dx + 2 * dy).toNat))

/-- `CollisionHandler.clearTile(quadkey, layer)`: drop the tile/layer slot
from the cache unless it is the batch currently being built (`curDataKey`);
an emptied tile-cache entry is removed entirely. -/
def clearTile (tiles : TilesMap) (curDataKey : Option String) (quadkey : String)
    (layer : Layer) : TilesMap :=
  if curDataKey = some (getDataKey quadkey layer) then
    tiles
  else
    match assocGet tiles (getTileCacheKey quadkey layer) with
    | none => tiles
    | some collisionTile =>
      if (assocDelete collisionTile (getDataKey quadkey layer)).isEmpty then
        assocDelete tiles (getTileCacheKey quadkey layer)
      else
        assocSet tiles (getTileCacheKey quadkey layer)
          (assocDelete collisionTile (getDataKey quadkey layer))

/-- The neighbour scan of `CollisionHandler.initTile`: all collision data
registered for the 8 tiles adjacent to the (256→512-adjusted) tile grid
position. -/
def gatherNeighbours (tiles : TilesMap) (x y z : ℕ) (layer : Layer) :
    List CollisionData :=
  let z1 := if layer.tileSize = 256 then z - 1 else z
  let x1 : ℤ := if layer.tileSize = 256 then ((x / 2 : ℕ) : ℤ) else (x : ℤ)
  let y1 : ℤ := if layer.tileSize = 256 then ((y / 2 : ℕ) : ℤ) else (y : ℤ)
  [((-1 : ℤ), (-1 : ℤ)), (-1, 0), (-1, 1), (0, -1), (0, 1), (1, -1), (1, 0), (1, 1)].flatMap
    fun o =>
      match assocGet tiles (tileXYToQuadKey z1 (y1 + o.1) (x1 + o.2)) with
      | some collisionData => collisionData.flatMap fun e => e.2
      | none => []

/-- `CollisionHandler.initTile(tile, layer)`: clears the slot being rebuilt,
gathers neighbour collision data plus the other entries already cached under
this tile-cache-key as the `existing` obstacle set, and starts an empty batch.
`curDataKey` is the data key of a batch currently being built, if any
(`this.curLayerTileCollision?.dataKey`). -/
def initTile (tiles : TilesMap) (curDataKey : Option String) (quadkey : String)
    (x y z : ℕ) (layer : Layer) : LayerTileCollision × TilesMap :=
  let tiles1 := clearTile tiles curDataKey quadkey layer
  (⟨getTileCacheKey quadkey layer, getDataKey quadkey layer, [],
    ("neighbours", gatherNeighbours tiles1 x y z layer) ::
      ((assocGet tiles1 (getTileCacheKey quadkey layer)).getD [])⟩,
    tiles1)

/-- `CollisionHandler.completeTile()`: commit the batch data into the tile
cache under its `(tileCacheKey)(dataKey)` slot, replacing any prior entry. -/
def completeTile (cur : LayerTileCollision) (tiles : TilesMap) : TilesMap :=
  assocSet tiles cur.tileKey
    (assocSet ((assocGet tiles cur.tileKey).getD []) cur.dataKey cur.data)

/-- A GPU attribute buffer as the phase-2 pass reads it: its data array
(modelled as a total function from index to value), the per-vertex stride
`size`, and the `dirty` upload flag. -/
structure Buffer where
  data : ℕ → ℕ
  size : ℕ
  dirty : Bool

/-- The attribute buffers referenced by `Attr.buffer` indices. -/
abbrev BufferStore := ℕ → Buffer

/-- Pointwise update of one buffer in the store. -/
def storeSet (st : BufferStore) (i : ℕ) (b : Buffer) : BufferStore :=
  fun j => if j = i then b else st j

/-- Fuel-driven unrolling of the visibility toggle loop
`while (start < stop) { data[start] ^= 1; start += size }`. The wrapper
`toggleRange` supplies fuel `stop - start`, enough for any stride `size ≥ 1`. -/
def toggleRangeGo : ℕ → (ℕ → ℕ) → ℕ → ℕ → ℕ → (ℕ → ℕ)
  | 0, data, _, _, _ => data
  | fuel + 1, data, start, stop, size =>
    if start < stop then
      toggleRangeGo fuel (fun p => if p = start then data p ^^^ 1 else data p)
        (start + size) stop size
    else data

/-- The toggle loop of `updateTiles`: flip the LSB of `data[p]` for
`p = start, start+size, ...` while `p < stop`. -/
def toggleRange (data : ℕ → ℕ) (start stop size : ℕ) : ℕ → ℕ :=
  toggleRangeGo (stop - start) data start stop size

/-- Fuel-driven membership test for the positions the toggle loop visits. -/
def posInToggleGo : ℕ → ℕ → ℕ → ℕ → ℕ → Bool
  | 0, _, _, _, _ => false
  | fuel + 1, p, start, stop, size =>
    if start < stop then (decide (p = start)) || posInToggleGo fuel p (start + size) stop size
    else false

/-- Does the toggle loop over `[start, stop)` with stride `size` visit `p`? -/
def posInToggle (p start stop size : ℕ) : Bool :=
  posInToggleGo (stop - start) p start stop size

/-- One iteration of the per-candidate buffer loop of `updateTiles`: read the
visibility bit at `data[start]`, and when it disagrees with the computed
collision outcome toggle the range, mark the buffer dirty and report an
update. -/
def applyAttr (inter : Bool) (a : Attr) (st : BufferStore) (updated : Bool) :
    BufferStore × Bool :=
  if inter == ((st a.buffer).data a.start &&& 1 == 1) then
    (storeSet st a.buffer
      { data := toggleRange (st a.buffer).data a.start a.stop (st a.buffer).size,
        size := (st a.buffer).size, dirty := true },
      true)
  else (st, updated)

/-- The `for (let {buffer, start, stop} of bbox.attrs)` loop of
`updateTiles`. -/
def applyAttrs (inter : Bool) (attrs : List Attr) (st : BufferStore) (updated : Bool) :
    BufferStore × Bool :=
  attrs.foldl (fun su a => applyAttr inter a su.1 su.2) (st, updated)

/-- State of the greedy priority sweep of `updateTiles`. -/
structure SweepState where
  visibleItemsViewportAligned : List CollisionData
  visibleItemsMapAligned : List CollisionData
  store : BufferStore
  updated : Bool

/-- The collision decision of the greedy sweep for one candidate: every
candidate is tested against the accepted viewport-aligned boxes
(`intersects(bbox, visibleItemsViewportAligned)`); only a non-slope candidate
is additionally tested against the accepted map-aligned boxes
(`intersects ||=`). -/
def sweepDecision (vp vm : List CollisionData) (bbox : CollisionData) : Bool :=
  if bbox.slope.isSome then intersects bbox vp
  else intersects bbox vp || intersects bbox vm

/-- One iteration of the greedy sweep (`for (let bbox of collisionData)`):
compute the collision decision, add a free candidate to the accepted set of
its class (map-aligned for slope candidates, viewport-aligned otherwise) and
toggle its buffers to match the decision. -/
def sweepStep (s : SweepState) (bbox : CollisionData) : SweepState :=
  let inter := sweepDecision s.visibleItemsViewportAligned s.visibleItemsMapAligned bbox
  let visVP := if bbox.slope.isSome then s.visibleItemsViewportAligned
    else if inter then s.visibleItemsViewportAligned
    else s.visibleItemsViewportAligned ++ [bbox]
  let visMap := if bbox.slope.isSome then
      (if inter then s.visibleItemsMapAligned else s.visibleItemsMapAligned ++ [bbox])
    else s.visibleItemsMapAligned
  let r := applyAttrs inter bbox.attrs s.store s.updated
  ⟨visVP, visMap, r.1, r.2⟩

/-- Two attribute ranges on a shared buffer toggle disjoint position sets
(`sz` maps buffer index to its stride). -/
def attrsDisjointSz (sz : ℕ → ℕ) (a b : Attr) : Prop :=
  a.buffer = b.buffer →
    ∀ p, ¬(posInToggle p a.start a.stop (sz a.buffer) = true ∧
      posInToggle p b.start b.stop (sz b.buffer) = true)

/-- Stable insertion into a priority-ascending list: the new element goes
after all elements of lower or equal priority. -/
def sortInsert (a : CollisionData) : List CollisionData → List CollisionData
  | [] => [a]
  | b :: t =>
    if decide (b.priority ≤ a.priority) then b :: sortInsert a t
    else a :: b :: t

/-- The sort `collisionData.sort((a, b) => a.priority - b.priority)`:
a stable sort by ascending priority (JS `Array.sort` with this comparator is
a stable ascending sort; modelled as stable insertion sort). -/
def sortByPriority (l : List CollisionData) : List CollisionData :=
  l.foldl (fun acc a => sortInsert a acc) []

/-- The resolution part of `updateTiles`: sort all projected candidates by
priority and run the greedy sweep, returning the updated buffer store and
whether any visibility bit was toggled. -/
def updateTilesSweep (collisionData : List CollisionData) (store : BufferStore) :
    BufferStore × Bool :=
  let r := (sortByPriority collisionData).foldl sweepStep ⟨[], [], store, false⟩
  (r.store, r.updated)

/-- A viewport tile as `updateTiles` reads it: screen position, scale and
quadkey. -/
structure ViewportTile where
  x : ℚ
  y : ℚ
  scale : ℚ
  quadkey : String

/-- `CollisionHandler.updateTileCollisionData`: re-project one tile's cached
world-space collision entries into current screen pixels. Multi-box (map
aligned) entries re-project their slope and rebuild the box chain; single-box
(viewport aligned) entries project their center and keep their stored `slope`
field unchanged. `project` abstracts `display.project` (the camera
transform), applied at the fixed arguments the source uses. -/
def updateTileCollisionData (project : ℚ → ℚ → ℚ × ℚ)
    (tileX tileY tileScale : ℚ) (tileCollisionData : CollisionDataMap)
    (displayScale : ℚ) : List CollisionData :=
  tileCollisionData.flatMap fun segment =>
    segment.2.map fun cData =>
      let offsetX := cData.offsetX / displayScale
      let offsetY := cData.offsetY / displayScale
      let boxCnt := cData.boxes.length
      let screenX := tileX + cData.cx * tileScale
      let screenY := tileY + cData.cy * tileScale
      if 1 < boxCnt then
        let screenX := screenX + offsetX
        let screenY := screenY + offsetY
        let prj := project screenX screenY
        let s0 := cData.slope.getD (0, 0)
        let prj2 := project (screenX + s0.1) (screenY + s0.2)
        let slope : ℚ × ℚ := ((prj2.1 - prj.1) / displayScale, (prj2.2 - prj.2) / displayScale)
        { boxes := updateBBoxes prj.1 prj.2 slope cData.halfWidth cData.halfHeight (boxCnt - 1),
          attrs := cData.attrs, priority := cData.priority,
          cx := 0, cy := 0, cz := 0, offsetX := 0, offsetY := 0,
          halfWidth := 0, halfHeight := 0, slope := some slope }
      else
        let prj := project screenX screenY
        { boxes := [{ minX := prj.1 - cData.halfWidth + offsetX,
                      maxX := prj.1 + cData.halfWidth + offsetX,
                      minY := prj.2 - cData.halfHeight + offsetY,
                      maxY := prj.2 + cData.halfHeight + offsetY }],
          attrs := cData.attrs, priority := cData.priority,
          cx := 0, cy := 0, cz := 0, offsetX := 0, offsetY := 0,
          halfWidth := 0, halfHeight := 0, slope := cData.slope }

/-- The collection loop of `updateTiles`: gather the projected candidates of
every viewport tile that has cached collision data. -/
def collectCollisionData (project : ℚ → ℚ → ℚ × ℚ) (tiles : List ViewportTile)
    (tilesMap : TilesMap) (displayScale : ℚ) : List CollisionData :=
  tiles.flatMap fun screentile =>
    match assocGet tilesMap screentile.quadkey with
    | some tileCollisionData =>
      updateTileCollisionData project screentile.x screentile.y screentile.scale
        tileCollisionData displayScale
    | none => []

/-- `CollisionHandler.updateTiles(tiles, displayScale)`: project all cached
candidates of the viewport tiles to screen space, sort by priority, run the
greedy sweep and toggle visibility bits; returns the buffer store and whether
anything was toggled. -/
def updateTiles (project : ℚ → ℚ → ℚ × ℚ) (tiles : List ViewportTile)
    (tilesMap : TilesMap) (displayScale : ℚ) (store : BufferStore) :
    BufferStore × Bool :=
  updateTilesSweep (collectCollisionData project tiles tilesMap displayScale) store

/-- The fixed phase-2 debounce delay (`UPDATE_DELAY_MS = 150`). -/
def UPDATE_DELAY_MS : ℕ := 150

/-- The timer-scheduling step of `CollisionHandler.update(callback)`: when no
resolution pass is pending (`this.timer == null`), schedule one to fire
`UPDATE_DELAY_MS` after the current time; otherwise leave the pending timer
untouched. -/
def update (timer : Option ℕ) (now : ℕ) : Option ℕ :=
  if timer = none then some (now + UPDATE_DELAY_MS) else timer

/-- Discrete-event semantics of the `setTimeout` debounce around `update`:
process the `update` call times (ascending) against the pending timer. A
pending timer not after the next call fires first (the callback resets
`this.timer = null`), after which the call goes through `update` again.
Returns the times at which resolution passes run. -/
def runCalls : List ℕ → Option ℕ → List ℕ
  | [], none => []
  | [], some f => [f]
  | t :: ts, none => runCalls ts (update none t)
  | t :: ts, some f =>
    if f ≤ t then f :: runCalls ts (update none t)
    else runCalls ts (update (some f) t)

end CollisionHandler

/-- Two collision entries have no pair of overlapping boxes
(closed-interval test). -/
def NoBoxOverlap (a b : CollisionData) : Prop :=
  ∀ b1 ∈ a.boxes, ∀ b2 ∈ b.boxes, boxesIntersect b1 b2 = false

/-- Batch invariant: accepted data pairwise non-overlapping and
non-overlapping with every existing/neighbour entry. -/
def BatchInvariant (cur : CollisionHandler.LayerTileCollision) : Prop :=
  cur.data.Pairwise (fun a b => NoBoxOverlap a b ∧ NoBoxOverlap b a) ∧
  ∀ cd ∈ cur.data, ∀ e ∈ cur.existing, ∀ d ∈ e.2, NoBoxOverlap cd d

namespace MVT

/-- Zigzag decoding of an unsigned varint (`pbf.readSVarint()`). -/
def svarint (n : ℕ) : ℤ :=
  if n % 2 = 1 then -(((n + 1) / 2 : ℕ) : ℤ) else ((n / 2 : ℕ) : ℤ)

/-- `if (line) lines.push(line)` of `loadGeometry`. -/
def pushLine (lines : List (List (ℤ × ℤ))) : Option (List (ℤ × ℤ)) → List (List (ℤ × ℤ))
  | none => lines
  | some l => lines ++ [l]

/-- The command-7 body of `loadGeometry`: if a line is open, append a copy of
its first point (`line.push(line[0].slice())`). -/
def closePolygonLine : Option (List (ℤ × ℤ)) → Option (List (ℤ × ℤ))
  | none => none
  | some l => some (l ++ l.take 1)

/-- The decode loop of `VectorTileFeature.prototype.loadGeometry`: `tokens`
are the varints remaining in the geometry window (`pbf.pos < end` becomes
`tokens ≠ []`). When the repeat count is exhausted a command varint is read
(`cmd = cmdLen & 7`, `length = cmdLen >> 3`); command 1 (moveTo) starts a new
line, 2 (lineTo) extends it, 7 closes the polygon, and any other command id
aborts with `unknown command`. A coordinate read past the window and a lineTo
with no open line surface the JS out-of-window read / TypeError as errors. -/
def loadGeometryLoop (tokens : List ℕ) (cmd0 : ℕ) (len0 : ℤ) (x y : ℤ)
    (lines : List (List (ℤ × ℤ))) (line : Option (List (ℤ × ℤ))) :
    Except String (List (List (ℤ × ℤ))) :=
  match tokens with
  | [] => Except.ok (pushLine lines line)
  | t :: rest =>
    let cmd := if len0 ≤ 0 then t % 8 else cmd0
    let len := (if len0 ≤ 0 then ((t / 8 : ℕ) : ℤ) else len0) - 1
    if cmd = 1 ∨ cmd = 2 then
      match hts : (if len0 ≤ 0 then rest else t :: rest) with
      | a :: b :: ts2 =>
        if cmd = 1 then
          loadGeometryLoop ts2 cmd len (x + svarint a) (y + svarint b)
            (pushLine lines line) (some [(x + svarint a, y + svarint b)])
        else
          match line with
          | some l =>
            loadGeometryLoop ts2 cmd len (x + svarint a) (y + svarint b)
              lines (some (l ++ [(x + svarint a, y + svarint b)]))
          | none => Except.error "lineTo without moveTo"
      | _ => Except.error "truncated geometry"
    else if cmd = 7 then
      loadGeometryLoop (if len0 ≤ 0 then rest else t :: rest) cmd len x y lines
        (closePolygonLine line)
    else
      Except.error ("unknown command " ++ toString cmd)
termination_by (tokens.length, len0.toNat)
decreasing_by
  · apply Prod.Lex.left
    split at hts
    · have := congrArg List.length hts
      simp at this
      simp
      omega
    · have := congrArg List.length hts
      simp at this
      simp
      omega
  · apply Prod.Lex.left
    split at hts
    · have := congrArg List.length hts
      simp at this
      simp
      omega
    · have := congrArg List.length hts
      simp at this
      simp
      omega
  · split
    · apply Prod.Lex.left
      simp
    · next hl =>
      apply Prod.Lex.right
      omega

/-- `VectorTileFeature.prototype.loadGeometry` on a geometry window. -/
def loadGeometry (tokens : List ℕ) : Except String (List (List (ℤ × ℤ))) :=
  loadGeometryLoop tokens 1 0 0 0 [] none

/-- Encode an abstract command list into the varint stream: each command
`(id, coords)` becomes `id + 8 * coords.length` followed by the raw zigzag
coordinate tokens (none for command 7). -/
def encodeCmds : List (ℕ × List (ℕ × ℕ)) → List ℕ
  | [] => []
  | (id, coords) :: rest =>
    (id + 8 * coords.length) :: ((coords.flatMap fun p => [p.1, p.2]) ++ encodeCmds rest)

/-- Well-formedness of a command list, relative to whether a line is already
open: only command ids 1, 2 and 7; moveTo/lineTo carry at least one
coordinate pair; lineTo requires an open line; closePolygon carries none. -/
def wfCmds : Bool → List (ℕ × List (ℕ × ℕ)) → Bool
  | _, [] => true
  | hasLine, (id, coords) :: rest =>
    if id = 1 then !coords.isEmpty && wfCmds true rest
    else if id = 2 then !coords.isEmpty && hasLine && wfCmds true rest
    else if id = 7 then coords.isEmpty && wfCmds hasLine rest
    else false

end MVT

namespace Extrude

/-- Minimum extrusion height below which no side walls are generated
(src/packages/display/src/displays/webgl/buffer/addExtrude.ts, MIN_VISIBLE_HEIGHT). -/
def MIN_VISIBLE_HEIGHT : ℚ := 1 / 100

/-- JavaScript Math.round: rounds to the nearest integer, halves towards
positive infinity. -/
def jsRound (q : ℚ) : ℤ :=
  ⌊q + 1 / 2⌋

/-- Modelled from the spec: isInBox is imported from the display geometry module
(not part of src/); per the spec and claim it tests that the point lies within
the pixel bounds [minX, maxX] x [minY, maxY]. -/
def isInBox (x y minX minY maxX maxY : ℚ) : Bool :=
  decide (minX ≤ x) && decide (x ≤ maxX) && decide (minY ≤ y) && decide (y ≤ maxY)

/-- Body of the signedArea loop of addExtrude.ts: for i from start while
i < stop - 1 step 3, accumulate (p2x - p1x) * (p1y + p2y) from the flat
x,y,z vertex list. The first argument is structural fuel bounding the
number of iterations. -/
def signedAreaGo (data : List ℚ) (stop1 : ℕ) : ℕ → ℕ → ℚ
  | 0, _ => 0
  | Nat.succ fuel, i =>
    if i < stop1 then
      (data.getD (i + 3) 0 - data.getD i 0) * (data.getD (i + 1) 0 + data.getD (i + 4) 0)
        + signedAreaGo data stop1 fuel (i + 3)
    else 0

/-- signedArea of addExtrude.ts on the flat vertex list. -/
def signedArea (data : List ℚ) (start stop : ℕ) : ℚ :=
  signedAreaGo data (stop - 1) stop start

/-- Flat-polygon descriptor returned by addPolygon: start/stop offsets into the
flat vertex list and the hole start offsets (in vertices, relative to start). -/
structure FlatPolygon where
  start : ℕ
  stop : ℕ
  holes : List ℕ
deriving DecidableEq

/-- Output state of the extrusion builder: the flat x,y,z vertex list, the
per-vertex 2D wall normals, the triangle index list and the optional stroke
index list. A normal is kept as the unnormalised perpendicular (-dy, dx) of
the rounded edge deltas; the source scales it by the real number
127 / sqrt(dx*dx + dy*dy), a positive factor that has no exact rational
representation and is not part of any claim. -/
structure ExtState where
  vertex : List ℚ
  normals : List (ℤ × ℤ)
  vIndex : List ℕ
  strokeIndex : Option (List ℕ)
deriving DecidableEq

/-- Wall-segment emission of addExterior: 4 vertices (top/bottom of both
endpoints, 12 floats), 4 normals, 6 triangle indices based at
vi = vertex.length / 3, and 8 stroke indices when a stroke index list is
present. -/
def pushWall (st : ExtState) (x1 y1 x2 y2 extrude extrudeBase : ℚ) (dx dy : ℤ) :
    ExtState :=
  { vertex := st.vertex ++
      [x1, y1, extrude, x1, y1, extrudeBase, x2, y2, extrude, x2, y2, extrudeBase]
    normals := st.normals ++ [(-dy, dx), (-dy, dx), (-dy, dx), (-dy, dx)]
    vIndex := st.vIndex ++
      [st.vertex.length / 3 + 2, st.vertex.length / 3, st.vertex.length / 3 + 1,
       st.vertex.length / 3 + 3, st.vertex.length / 3 + 2, st.vertex.length / 3 + 1]
    strokeIndex := st.strokeIndex.map fun s => s ++
      [st.vertex.length / 3, st.vertex.length / 3 + 1, st.vertex.length / 3 + 2,
       st.vertex.length / 3 + 3, st.vertex.length / 3, st.vertex.length / 3 + 2,
       st.vertex.length / 3 + 1, st.vertex.length / 3 + 3] }

/-- The while loop of addExterior. s0 and S are flatPolygon.start and
flatPolygon.stop - 3. nextHole is None when the hole offset read is undefined
(JavaScript NaN, which is falsy and never equal to start); Some 0 is likewise
falsy in the source and treated as "no hole" in the signedArea stop argument.
The first numeric argument is structural fuel bounding the iteration count. -/
def addExteriorGo (s0 S : ℕ) (tileSize extrude extrudeBase : ℚ) (holes : List ℕ) :
    ℕ → ℕ → Option ℤ → Bool → ℕ → ExtState → ExtState
  | 0, _, _, _, _, st => st
  | Nat.succ fuel, start, nextHole, clockwise, holeIndex, st =>
    if start < S then
      let x1 := if clockwise then st.vertex.getD (s0 + S - start) 0
        else st.vertex.getD start 0
      let y1 := if clockwise then st.vertex.getD (s0 + S - start + 1) 0
        else st.vertex.getD (start + 1) 0
      let x2 := if clockwise then st.vertex.getD (s0 + S - start - 3) 0
        else st.vertex.getD (start + 3) 0
      let y2 := if clockwise then st.vertex.getD (s0 + S - start - 2) 0
        else st.vertex.getD (start + 4) 0
      let dx := jsRound x1 - jsRound x2
      let dy := jsRound y1 - jsRound y2
      let st2 :=
        if (!decide (dx = 0) || !decide (dy = 0)) &&
            (isInBox x1 y1 0 0 tileSize tileSize || isInBox x2 y2 0 0 tileSize tileSize)
        then pushWall st x1 y1 x2 y2 extrude extrudeBase dx dy
        else st
      if nextHole = some (start : ℤ) then
        let nextHole2 := (holes.get? (holeIndex + 1)).map
          fun h => (s0 : ℤ) + (h : ℤ) * 3 - 6
        let saStop := match nextHole2 with
          | some nh => if nh = 0 then S else (nh + 3).toNat
          | none => S
        addExteriorGo s0 S tileSize extrude extrudeBase holes fuel (start + 6) nextHole2
          (decide (signedArea st2.vertex (start + 6) saStop < 0)) (holeIndex + 1) st2
      else
        addExteriorGo s0 S tileSize extrude extrudeBase holes fuel (start + 3) nextHole
          clockwise holeIndex st2
    else st

/-- addExterior of addExtrude.ts: determines the exterior winding via
signedArea and runs the wall-emission loop over the ring edges. -/
def addExterior (flat : FlatPolygon) (tileSize extrude extrudeBase : ℚ)
    (st : ExtState) : ExtState :=
  let S := flat.stop - 3
  let nextHole : Option ℤ := (flat.holes.get? 0).map
    fun h => (flat.start : ℤ) + (h : ℤ) * 3 - 6
  let saStop := match nextHole with
    | some nh => if nh = 0 then S else (nh + 3).toNat
    | none => S
  addExteriorGo flat.start S tileSize extrude extrudeBase flat.holes S flat.start
    nextHole (decide (0 ≤ signedArea st.vertex flat.start saStop)) 0 st

/-- addExtrude of addExtrude.ts. Modelled from the spec: addPolygon (not part
of src/) tessellates the flat top surface, appending polyData (x,y,extrude
triples of the rings) to the vertex list and returning the flat-polygon
descriptors flats; it is passed here as data. addExtrude then pushes one fake
(0,0) top normal per appended vertex triple and, only when extrude exceeds
MIN_VISIBLE_HEIGHT, adds the exterior walls of every flat polygon. -/
def addExtrude (vertex : List ℚ) (normals : List (ℤ × ℤ)) (vIndex : List ℕ)
    (strokeIndex : Option (List ℕ)) (tileSize extrude extrudeBase : ℚ)
    (polyData : List ℚ) (flats : List FlatPolygon) : ExtState :=
  let st : ExtState :=
    { vertex := vertex ++ polyData
      normals := normals ++ List.replicate ((polyData.length + 2) / 3) ((0 : ℤ), (0 : ℤ))
      vIndex := vIndex
      strokeIndex := strokeIndex }
  if MIN_VISIBLE_HEIGHT < extrude then
    flats.foldl (fun s flat => addExterior flat tileSize extrude extrudeBase s) st
  else st

/-- The emission test of addExterior on one edge, as a predicate on the edge's
endpoint pair: the rounded integer deltas are not both zero, and at least one
endpoint lies inside the tile pixel box. -/
def emitEdge (tileSize : ℚ) (e : (ℚ × ℚ) × (ℚ × ℚ)) : Bool :=
  (!decide (jsRound e.1.1 - jsRound e.2.1 = 0) || !decide (jsRound e.1.2 - jsRound e.2.2 = 0)) &&
    (isInBox e.1.1 e.1.2 0 0 tileSize tileSize || isInBox e.2.1 e.2.2 0 0 tileSize tileSize)

/-- The ring edges of a flat polygon: edge j joins vertex j (at flat offset
s0 + 3j) to vertex j + 1. -/
def ringEdges (v : List ℚ) (s0 m : ℕ) : List ((ℚ × ℚ) × (ℚ × ℚ)) :=
  (List.range m).map fun j =>
    ((v.getD (s0 + 3 * j) 0, v.getD (s0 + 3 * j + 1) 0),
     (v.getD (s0 + 3 * j + 3) 0, v.getD (s0 + 3 * j + 4) 0))

/-- The flat vertex data of a list of wall segments: 4 vertices (12 floats)
per segment. -/
def wallVerts (extrude extrudeBase : ℚ) (es : List ((ℚ × ℚ) × (ℚ × ℚ))) : List ℚ :=
  es.flatMap fun e =>
    [e.1.1, e.1.2, extrude, e.1.1, e.1.2, extrudeBase,
     e.2.1, e.2.2, extrude, e.2.1, e.2.2, extrudeBase]

/-- The triangle indices of n wall segments starting at vertex index vi0:
6 indices per segment, advancing by 4 vertices per segment. -/
def wallIndices (vi0 : ℕ) : ℕ → List ℕ
  | 0 => []
  | Nat.succ n =>
    [vi0 + 2, vi0, vi0 + 1, vi0 + 3, vi0 + 2, vi0 + 1] ++ wallIndices (vi0 + 4) n

/-- One emission step of the addExterior loop expressed on an edge value. -/
def emitStep (tileSize extrude extrudeBase : ℚ) (st : ExtState)
    (e : (ℚ × ℚ) × (ℚ × ℚ)) : ExtState :=
  if emitEdge tileSize e then
    pushWall st e.1.1 e.1.2 e.2.1 e.2.2 extrude extrudeBase
      (jsRound e.1.1 - jsRound e.2.1) (jsRound e.1.2 - jsRound e.2.2)
  else st

/-- Folding the emission step over a list of edges. -/
def emitFold (tileSize extrude extrudeBase : ℚ) (es : List ((ℚ × ℚ) × (ℚ × ℚ)))
    (st : ExtState) : ExtState :=
  es.foldl (emitStep tileSize extrude extrudeBase) st

end Extrude

/-- Identity screen projection, for concrete phase-2 scenarios. -/
def exampleProject : ℚ → ℚ → ℚ × ℚ := fun x y => (x, y)

/-- A store of unit-stride buffers whose bytes are all zero. -/
def exampleStore : CollisionHandler.BufferStore := fun _ => ⟨fun _ => 0, 1, false⟩

/-- The stride map of `exampleStore`. -/
def exampleSz : ℕ → ℕ := fun _ => 1

/-- A cached collision entry anchored at `(cxv, 0)` with half-extents 9. -/
def exampleEntry (cxv prio : ℚ) (slope : Option (ℚ × ℚ)) (a : Attr) : CollisionData :=
  ⟨[⟨cxv - 9, cxv + 9, -9, 9⟩], [a], prio, cxv, 0, 0, 0, 0, 9, 9, slope⟩

/-- A one-tile viewport at the origin. -/
def exampleViewport : List CollisionHandler.ViewportTile := [⟨0, 0, 1, "q"⟩]

/-- A collision cache holding one viewport-aligned and one overlapping
slope-marked entry for tile "q". -/
def exampleTilesMapMixed : CollisionHandler.TilesMap :=
  [("q", [("1-q", [exampleEntry 0 1 none ⟨0, 0, 1⟩,
                   exampleEntry 1 2 (some (1, 0)) ⟨0, 1, 2⟩])])]

/-- A collision cache holding two overlapping slope-marked entries for
tile "q". -/
def exampleTilesMapSlope : CollisionHandler.TilesMap :=
  [("q", [("1-q", [exampleEntry 0 1 (some (1, 0)) ⟨0, 0, 1⟩,
                   exampleEntry 2 2 (some (1, 0)) ⟨0, 1, 2⟩])])]

/-- A collision cache holding two overlapping slope-marked entries for
tile "q" (variant used to refute the unrestricted priority-ordering claim). -/
def exampleTilesMapSlope2 : CollisionHandler.TilesMap :=
  [("q", [("1-q", [exampleEntry 0 1 (some (1, 0)) ⟨0, 0, 1⟩,
                   exampleEntry 3 2 (some (1, 0)) ⟨0, 1, 2⟩])])]

end XyzMaps

namespace XyzMaps

theorem boxesIntersect_symm (b1 b2 : BBox) :
    boxesIntersect b1 b2 = boxesIntersect b2 b1 := by
  simp only [boxesIntersect]
  by_cases h1 : b1.minX ≤ b2.maxX <;>
  by_cases h2 : b2.minX ≤ b1.maxX <;>
  by_cases h3 : b1.minY ≤ b2.maxY <;>
  by_cases h4 : b2.minY ≤ b1.maxY <;>
  simp [h1, h2, h3, h4]

theorem noBoxOverlap_symm {a b : CollisionData} (h : NoBoxOverlap a b) :
    NoBoxOverlap b a := by
  intro b1 hb1 b2 hb2
  rw [boxesIntersect_symm]
  exact h b2 hb2 b1 hb1

theorem intersects_eq_false_iff (cd : CollisionData) (data : List CollisionData) :
    CollisionHandler.intersects cd data = false ↔ ∀ d ∈ data, NoBoxOverlap cd d := by
  simp only [CollisionHandler.intersects, List.any_eq_false, Bool.not_eq_true,
    NoBoxOverlap]
  constructor
  · intro h d hd b1 hb1 b2 hb2
    exact h d hd b2 hb2 b1 hb1
  · intro h d hd b2 hb2 b1 hb1
    exact h d hd b1 hb1 b2 hb2

theorem insert_existing_eq (cx cy cz offsetX offsetY halfWidth halfHeight : ℚ)
    (tile : CollisionHandler.Tile) (tileSize : ℕ) (priority : ℚ)
    (slope : Option (ℚ × ℚ)) (cur : CollisionHandler.LayerTileCollision) (updated : Bool) :
    (CollisionHandler.insert cx cy cz offsetX offsetY halfWidth halfHeight tile tileSize
      priority slope cur updated).2.1.existing = cur.existing := by
  unfold CollisionHandler.insert CollisionHandler.insertCD
  split
  · rfl
  · split <;> rfl

theorem insert_invariant (cx cy cz offsetX offsetY halfWidth halfHeight : ℚ)
    (tile : CollisionHandler.Tile) (tileSize : ℕ) (priority : ℚ)
    (slope : Option (ℚ × ℚ)) (cur : CollisionHandler.LayerTileCollision) (updated : Bool)
    (h : BatchInvariant cur) :
    BatchInvariant (CollisionHandler.insert cx cy cz offsetX offsetY halfWidth halfHeight
      tile tileSize priority slope cur updated).2.1 := by
  unfold CollisionHandler.insert CollisionHandler.insertCD
  split
  · exact h
  · split
    · exact h
    · next hdata hexist =>
      rw [Bool.not_eq_true] at hdata
      rw [intersects_eq_false_iff] at hdata
      constructor
      · rw [List.pairwise_append]
        refine ⟨h.1, List.pairwise_singleton _ _, ?_⟩
        intro a ha b hb
        rw [List.mem_singleton] at hb
        subst hb
        exact ⟨noBoxOverlap_symm (hdata a ha), hdata a ha⟩
      · intro cd hcd e he d hd
        rw [List.mem_append, List.mem_singleton] at hcd
        rcases hcd with hcd | hcd
        · exact h.2 cd hcd e he d hd
        · subst hcd
          rw [Bool.not_eq_true, List.any_eq_false] at hexist
          have := hexist e he
          rw [Bool.not_eq_true, intersects_eq_false_iff] at this
          exact this d hd

theorem runInserts_invariant (reqs : List CollisionHandler.InsertReq)
    (cur : CollisionHandler.LayerTileCollision) (updated : Bool)
    (h : BatchInvariant cur) :
    BatchInvariant (CollisionHandler.runInserts reqs cur updated).1 ∧
    (CollisionHandler.runInserts reqs cur updated).1.existing = cur.existing := by
  induction reqs generalizing cur updated with
  | nil => exact ⟨h, rfl⟩
  | cons r rs ih =>
    have hstep := insert_invariant r.cx r.cy r.cz r.offsetX r.offsetY r.halfWidth
      r.halfHeight r.tile r.tileSize r.priority r.slope cur updated h
    have hex := insert_existing_eq r.cx r.cy r.cz r.offsetX r.offsetY r.halfWidth
      r.halfHeight r.tile r.tileSize r.priority r.slope cur updated
    have := ih _ (CollisionHandler.insertReq r cur updated).2.2 hstep
    simp only [CollisionHandler.runInserts, List.foldl_cons] at *
    exact ⟨this.1, this.2.trans hex⟩

/-- C1: within one `initTile`/`completeTile` batch (empty initial batch data,
arbitrary neighbour/existing set), after any sequence of `insert` calls the
accepted entries (exactly the batch `data`) are pairwise non-overlapping under
the closed-interval box test, and every accepted entry is non-overlapping with
every box of every neighbour/existing entry (which `insert` never modifies). -/
theorem C1_phase1_no_overlap (reqs : List CollisionHandler.InsertReq)
    (tileKey dataKey : String) (existing : List (String × List CollisionData)) :
    ((CollisionHandler.runInserts reqs ⟨tileKey, dataKey, [], existing⟩ false).1.data.Pairwise
      fun a b => NoBoxOverlap a b ∧ NoBoxOverlap b a) ∧
    ∀ cd ∈ (CollisionHandler.runInserts reqs ⟨tileKey, dataKey, [], existing⟩ false).1.data,
      ∀ e ∈ existing, ∀ d ∈ e.2, NoBoxOverlap cd d := by
  have h0 : BatchInvariant ⟨tileKey, dataKey, [], existing⟩ := by
    constructor
    · exact List.Pairwise.nil
    · intro cd hcd
      simp at hcd
  have := runInserts_invariant reqs ⟨tileKey, dataKey, [], existing⟩ false h0
  refine ⟨this.1.1, ?_⟩
  intro cd hcd e he d hd
  have hex := this.2
  exact this.1.2 cd hcd e (by rw [hex]; exact he) d hd

theorem anchorX_256 (cx ox : ℚ) (tX : ℕ) :
    CollisionHandler.anchorX cx ox tX 256 = (tX : ℚ) * 256 + ox + cx := by
  have h : 2 * (tX / 2) + tX % 2 = tX := Nat.div_add_mod tX 2
  have hq : (2 : ℚ) * ((tX / 2 : ℕ) : ℚ) + ((tX % 2 : ℕ) : ℚ) = (tX : ℚ) := by
    exact_mod_cast congrArg (fun n : ℕ => (n : ℚ)) h
  simp only [CollisionHandler.anchorX, if_pos rfl]
  push_cast
  linarith

theorem anchorX_not256 (cx ox : ℚ) (tX sz : ℕ) (h : sz ≠ 256) :
    CollisionHandler.anchorX cx ox tX sz = (tX : ℚ) * (sz : ℚ) + ox + cx := by
  simp only [CollisionHandler.anchorX, if_neg h]
  ring

theorem anchorY_256 (cy oy : ℚ) (tY : ℕ) :
    CollisionHandler.anchorY cy oy tY 256 = (tY : ℚ) * 256 + oy + cy := by
  have h : 2 * (tY / 2) + tY % 2 = tY := Nat.div_add_mod tY 2
  have hq : (2 : ℚ) * ((tY / 2 : ℕ) : ℚ) + ((tY % 2 : ℕ) : ℚ) = (tY : ℚ) := by
    exact_mod_cast congrArg (fun n : ℕ => (n : ℚ)) h
  simp only [CollisionHandler.anchorY, if_pos rfl]
  push_cast
  linarith

theorem anchorY_not256 (cy oy : ℚ) (tY sz : ℕ) (h : sz ≠ 256) :
    CollisionHandler.anchorY cy oy tY sz = (tY : ℚ) * (sz : ℚ) + oy + cy := by
  simp only [CollisionHandler.anchorY, if_neg h]
  ring

theorem mkCollisionData_boxes_none (cx cy cz ox oy hw hh p : ℚ)
    (tile : CollisionHandler.Tile) (sz : ℕ) :
    (CollisionHandler.mkCollisionData cx cy cz ox oy hw hh tile sz p none).boxes =
      [{ minX := CollisionHandler.anchorX cx ox tile.x sz - (hw + 4),
         maxX := CollisionHandler.anchorX cx ox tile.x sz + (hw + 4),
         minY := CollisionHandler.anchorY cy oy tile.y sz - (hh + 4),
         maxY := CollisionHandler.anchorY cy oy tile.y sz + (hh + 4) }] := by
  simp only [CollisionHandler.mkCollisionData, CollisionHandler.anchorX,
    CollisionHandler.anchorY, CollisionHandler.boxBuffer, List.cons.injEq, and_true,
    BBox.mk.injEq]
  refine ⟨by ring, by ring, by ring, by ring⟩

theorem mkCollisionData_boxes_chain (cx cy cz ox oy hw hh p : ℚ)
    (tile : CollisionHandler.Tile) (sz : ℕ) (s : ℚ × ℚ)
    (har : (3 : ℚ)/2 < ((CollisionHandler.aspectOf hw hh : ℤ) : ℚ)) :
    (CollisionHandler.mkCollisionData cx cy cz ox oy hw hh tile sz p (some s)).boxes =
      CollisionHandler.updateBBoxes
        (CollisionHandler.anchorX cx ox tile.x sz)
        (CollisionHandler.anchorY cy oy tile.y sz) s
        (min (hw + 4) (hh + 4)) (min (hw + 4) (hh + 4))
        (CollisionHandler.chainCount hw hh) := by
  simp only [CollisionHandler.mkCollisionData, CollisionHandler.boxBuffer]
  rw [if_pos]
  · simp only [CollisionHandler.anchorX, CollisionHandler.anchorY,
      CollisionHandler.chainCount, CollisionHandler.aspectOf,
      CollisionHandler.boxBuffer]
  · exact_mod_cast har

theorem aspectOf_30_5 : CollisionHandler.aspectOf 30 5 = 3 := by
  unfold CollisionHandler.aspectOf CollisionHandler.boxBuffer
  rw [show max ((30 : ℚ) + 4) (5 + 4) = 34 by norm_num,
    show min ((30 : ℚ) + 4) (5 + 4) = 9 by norm_num]
  rw [Int.floor_eq_iff] <;> norm_num

theorem chainCount_30_5 : CollisionHandler.chainCount 30 5 = 2 := by
  unfold CollisionHandler.chainCount
  rw [aspectOf_30_5]
  rw [show ((3 : ℤ) : ℚ) * (7/10) = 21/10 by norm_num]
  rw [show ⌊(21 : ℚ)/10⌋ = 2 from by rw [Int.floor_eq_iff] <;> norm_num]
  rfl

/-- C5 (counterexample): `insert` with `halfWidth=30, halfHeight=5,
slope=[1,0]` produces sub-boxes of half-extent `9 = min(30,5) + 4`, which
exceeds `min(halfWidth, halfHeight) = 5`, contradicting the claim's bound. -/
theorem C5_counterexample :
    ∃ b ∈ (CollisionHandler.mkCollisionData 0 0 0 0 0 30 5 ⟨0, 0, 3⟩ 512 1
      (some (1, 0))).boxes, min (30 : ℚ) 5 < (b.maxX - b.minX) / 2 := by
  have har : (3 : ℚ)/2 < ((CollisionHandler.aspectOf 30 5 : ℤ) : ℚ) := by
    rw [aspectOf_30_5]; norm_num
  have hb := mkCollisionData_boxes_chain 0 0 0 0 0 30 5 1 ⟨0, 0, 3⟩ 512 (1, 0) har
  refine ⟨{ minX := -9 + 3/8, maxX := 9 + 3/8, minY := -9, maxY := 9 }, ?_, by norm_num⟩
  rw [hb, chainCount_30_5]
  unfold CollisionHandler.updateBBoxes
  rw [List.mem_map]
  refine ⟨2, by simp, ?_⟩
  rw [show CollisionHandler.anchorX 0 0 (CollisionHandler.Tile.mk 0 0 3).x 512 = 0 from by
    rw [anchorX_not256 _ _ _ _ (by norm_num)]; norm_num]
  rw [show CollisionHandler.anchorY 0 0 (CollisionHandler.Tile.mk 0 0 3).y 512 = 0 from by
    rw [anchorY_not256 _ _ _ _ (by norm_num)]; norm_num]
  simp only [BBox.mk.injEq]
  norm_num

theorem chainCount_pos (hw hh : ℚ)
    (har : (3 : ℚ)/2 < ((CollisionHandler.aspectOf hw hh : ℤ) : ℚ)) :
    1 ≤ CollisionHandler.chainCount hw hh := by
  have h2 : (2 : ℤ) ≤ CollisionHandler.aspectOf hw hh := by
    have : (1 : ℤ) < CollisionHandler.aspectOf hw hh := by
      exact_mod_cast lt_trans (by norm_num : (1 : ℚ) < 3/2) har
    omega
  have hfl : (1 : ℤ) ≤ ⌊((CollisionHandler.aspectOf hw hh : ℤ) : ℚ) * (7/10)⌋ := by
    rw [Int.le_floor]
    have : ((2 : ℤ) : ℚ) ≤ ((CollisionHandler.aspectOf hw hh : ℤ) : ℚ) := by
      exact_mod_cast h2
    push_cast at this ⊢
    linarith
  unfold CollisionHandler.chainCount
  omega

/-- C5 (amended): a slope-aligned candidate whose padded aspect ratio floor
`⌊max(hw+4,hh+4)/min(hw+4,hh+4)⌋` exceeds 1.5 is represented as a chain of
`⌊aspect*0.7⌋ + 1 ≥ 2` square sub-boxes of half-extent
`min(halfWidth,halfHeight) + 4` (the padded minimum, not the bare
`min(halfWidth,halfHeight)` of the original claim), whose centers are spaced
along the slope vector at relative positions `(i/count - 0.5) * 0.75`. -/
theorem C5_slope_chain (cx cy cz ox oy hw hh p : ℚ)
    (tile : CollisionHandler.Tile) (sz : ℕ) (s : ℚ × ℚ)
    (har : (3 : ℚ)/2 < ((CollisionHandler.aspectOf hw hh : ℤ) : ℚ)) :
    (CollisionHandler.mkCollisionData cx cy cz ox oy hw hh tile sz p
        (some s)).boxes.length = CollisionHandler.chainCount hw hh + 1 ∧
    2 ≤ (CollisionHandler.mkCollisionData cx cy cz ox oy hw hh tile sz p
        (some s)).boxes.length ∧
    ∀ i, i < CollisionHandler.chainCount hw hh + 1 →
      (CollisionHandler.mkCollisionData cx cy cz ox oy hw hh tile sz p
          (some s)).boxes[i]? = some
        { minX := s.1 * CollisionHandler.relPos i (CollisionHandler.chainCount hw hh) +
            CollisionHandler.anchorX cx ox tile.x sz - min (hw + 4) (hh + 4),
          maxX := s.1 * CollisionHandler.relPos i (CollisionHandler.chainCount hw hh) +
            CollisionHandler.anchorX cx ox tile.x sz + min (hw + 4) (hh + 4),
          minY := s.2 * CollisionHandler.relPos i (CollisionHandler.chainCount hw hh) +
            CollisionHandler.anchorY cy oy tile.y sz - min (hw + 4) (hh + 4),
          maxY := s.2 * CollisionHandler.relPos i (CollisionHandler.chainCount hw hh) +
            CollisionHandler.anchorY cy oy tile.y sz + min (hw + 4) (hh + 4) } := by
  have hb := mkCollisionData_boxes_chain cx cy cz ox oy hw hh p tile sz s har
  have hcnt := chainCount_pos hw hh har
  refine ⟨?_, ?_, ?_⟩
  · rw [hb]
    unfold CollisionHandler.updateBBoxes
    rw [List.length_map, List.length_range]
  · rw [hb]
    unfold CollisionHandler.updateBBoxes
    rw [List.length_map, List.length_range]
    omega
  · intro i hi
    rw [hb]
    unfold CollisionHandler.updateBBoxes
    simp only [List.getElem?_map]
    rw [List.getElem?_range hi]
    simp only [Option.map_some', Option.some.injEq, CollisionHandler.relPos, BBox.mk.injEq]

/-- C5 (witness): the hypothesis and conclusion hold at the claim's concrete
input `halfWidth=30, halfHeight=5, slope=[1,0]` (padded aspect floor 3). -/
theorem C5_slope_chain_witness :
    ((3 : ℚ)/2 < ((CollisionHandler.aspectOf 30 5 : ℤ) : ℚ)) ∧
    ((CollisionHandler.mkCollisionData 0 0 0 0 0 30 5 ⟨0, 0, 3⟩ 512 1
        (some (1, 0))).boxes.length = CollisionHandler.chainCount 30 5 + 1 ∧
    2 ≤ (CollisionHandler.mkCollisionData 0 0 0 0 0 30 5 ⟨0, 0, 3⟩ 512 1
        (some (1, 0))).boxes.length ∧
    ∀ i, i < CollisionHandler.chainCount 30 5 + 1 →
      (CollisionHandler.mkCollisionData 0 0 0 0 0 30 5 ⟨0, 0, 3⟩ 512 1
          (some (1, 0))).boxes[i]? = some
        { minX := (1 : ℚ) * CollisionHandler.relPos i (CollisionHandler.chainCount 30 5) +
            CollisionHandler.anchorX 0 0 0 512 - min (30 + 4) (5 + 4),
          maxX := (1 : ℚ) * CollisionHandler.relPos i (CollisionHandler.chainCount 30 5) +
            CollisionHandler.anchorX 0 0 0 512 + min (30 + 4) (5 + 4),
          minY := (0 : ℚ) * CollisionHandler.relPos i (CollisionHandler.chainCount 30 5) +
            CollisionHandler.anchorY 0 0 0 512 - min (30 + 4) (5 + 4),
          maxY := (0 : ℚ) * CollisionHandler.relPos i (CollisionHandler.chainCount 30 5) +
            CollisionHandler.anchorY 0 0 0 512 + min (30 + 4) (5 + 4) }) :=
  ⟨by rw [aspectOf_30_5]; norm_num,
    C5_slope_chain 0 0 0 0 0 30 5 1 ⟨0, 0, 3⟩ 512 (1, 0) (by rw [aspectOf_30_5]; norm_num)⟩

theorem insertCD_accept (cd : CollisionData) (cur : CollisionHandler.LayerTileCollision)
    (updated : Bool) (h1 : CollisionHandler.intersects cd cur.data = false)
    (h2 : (cur.existing.any fun e => CollisionHandler.intersects cd e.2) = false) :
    CollisionHandler.insertCD cd cur updated =
      (some cd, { cur with data := cur.data ++ [cd] }, true) := by
  unfold CollisionHandler.insertCD
  simp [h1, h2]

theorem insertCD_reject_data (cd : CollisionData) (cur : CollisionHandler.LayerTileCollision)
    (updated : Bool) (h : CollisionHandler.intersects cd cur.data = true) :
    CollisionHandler.insertCD cd cur updated = (none, cur, updated) := by
  unfold CollisionHandler.insertCD
  simp [h]

/-- C6: in a batch with empty neighbour/existing set, on any tile of size 256
or 512, `insert(cx=10, cy=10, cz=0, offsetX=0, offsetY=0, halfWidth=5,
halfHeight=5, priority=1)` is accepted and the subsequent
`insert(cx=12, cy=12, ...)` on the same tile returns `false` (the two 4px
padded boxes overlap). -/
theorem C6_box_rejection (tk dk : String) (tile : CollisionHandler.Tile) (sz : ℕ)
    (hsz : sz = 256 ∨ sz = 512) :
    (CollisionHandler.insert 10 10 0 0 0 5 5 tile sz 1 none
      ⟨tk, dk, [], []⟩ false).1.isSome = true ∧
    (CollisionHandler.insert 12 12 0 0 0 5 5 tile sz 2 none
      (CollisionHandler.insert 10 10 0 0 0 5 5 tile sz 1 none ⟨tk, dk, [], []⟩ false).2.1
      (CollisionHandler.insert 10 10 0 0 0 5 5 tile sz 1 none
        ⟨tk, dk, [], []⟩ false).2.2).1 = none := by
  have hx : CollisionHandler.anchorX 12 0 tile.x sz =
      CollisionHandler.anchorX 10 0 tile.x sz + 2 := by
    rcases hsz with h | h <;> subst h
    · rw [anchorX_256, anchorX_256]; ring
    · rw [anchorX_not256 _ _ _ _ (by norm_num), anchorX_not256 _ _ _ _ (by norm_num)]; ring
  have hy : CollisionHandler.anchorY 12 0 tile.y sz =
      CollisionHandler.anchorY 10 0 tile.y sz + 2 := by
    rcases hsz with h | h <;> subst h
    · rw [anchorY_256, anchorY_256]; ring
    · rw [anchorY_not256 _ _ _ _ (by norm_num), anchorY_not256 _ _ _ _ (by norm_num)]; ring
  have hint : CollisionHandler.intersects
      (CollisionHandler.mkCollisionData 12 12 0 0 0 5 5 tile sz 2 none)
      [CollisionHandler.mkCollisionData 10 10 0 0 0 5 5 tile sz 1 none] = true := by
    simp only [CollisionHandler.intersects, List.any_cons, List.any_nil, Bool.or_false]
    rw [mkCollisionData_boxes_none 12 12 0 0 0 5 5 2 tile sz,
      mkCollisionData_boxes_none 10 10 0 0 0 5 5 1 tile sz]
    simp only [List.any_cons, List.any_nil, Bool.or_false, boxesIntersect,
      Bool.and_eq_true, decide_eq_true_eq]
    refine ⟨⟨⟨?_, ?_⟩, ?_⟩, ?_⟩ <;> linarith [hx, hy]
  have acc := insertCD_accept (CollisionHandler.mkCollisionData 10 10 0 0 0 5 5 tile sz 1 none)
    ⟨tk, dk, [], []⟩ false rfl rfl
  constructor
  · unfold CollisionHandler.insert
    rw [acc]
    rfl
  · unfold CollisionHandler.insert
    rw [acc]
    rw [insertCD_reject_data _ _ _ (by simpa using hint)]

/-- C6 (witness): the scenario on the concrete 512-tile (0,0) at zoom 3. -/
theorem C6_box_rejection_witness :
    ((512 : ℕ) = 256 ∨ (512 : ℕ) = 512) ∧
    ((CollisionHandler.insert 10 10 0 0 0 5 5 ⟨0, 0, 3⟩ 512 1 none
      ⟨"", "", [], []⟩ false).1.isSome = true ∧
    (CollisionHandler.insert 12 12 0 0 0 5 5 ⟨0, 0, 3⟩ 512 2 none
      (CollisionHandler.insert 10 10 0 0 0 5 5 ⟨0, 0, 3⟩ 512 1 none
        ⟨"", "", [], []⟩ false).2.1
      (CollisionHandler.insert 10 10 0 0 0 5 5 ⟨0, 0, 3⟩ 512 1 none
        ⟨"", "", [], []⟩ false).2.2).1 = none) :=
  ⟨Or.inr rfl, C6_box_rejection "" "" ⟨0, 0, 3⟩ 512 (Or.inr rfl)⟩

theorem assocSet_cons_ne {α : Type} (e : String × α) (rest : List (String × α))
    (k : String) (v : α) (h : ¬e.1 = k) :
    CollisionHandler.assocSet (e :: rest) k v = e :: CollisionHandler.assocSet rest k v := by
  by_cases hr : rest.any fun x => decide (x.1 = k)
  · simp [CollisionHandler.assocSet, h, hr]
  · simp [CollisionHandler.assocSet, h, hr]

theorem assocGet_assocSet_self {α : Type} (m : List (String × α)) (k : String) (v : α) :
    CollisionHandler.assocGet (CollisionHandler.assocSet m k v) k = some v := by
  induction m with
  | nil => simp [CollisionHandler.assocSet, CollisionHandler.assocGet]
  | cons e rest ih =>
    by_cases hek : e.1 = k
    · have hany : (e :: rest).any (fun x => decide (x.1 = k)) = true := by
        simp [List.any_cons, hek]
      simp only [CollisionHandler.assocSet, hany, if_pos, List.map_cons]
      rw [if_pos hek]
      simp [CollisionHandler.assocGet]
    · rw [assocSet_cons_ne e rest k v hek]
      simp only [CollisionHandler.assocGet, if_neg hek]
      exact ih

theorem mem_assocSet_self {α : Type} (m : List (String × α)) (k : String) (v : α) :
    (k, v) ∈ CollisionHandler.assocSet m k v := by
  induction m with
  | nil => simp [CollisionHandler.assocSet]
  | cons e rest ih =>
    by_cases hek : e.1 = k
    · have hany : (e :: rest).any (fun x => decide (x.1 = k)) = true := by
        simp [List.any_cons, hek]
      simp only [CollisionHandler.assocSet, hany, if_pos, List.map_cons]
      rw [if_pos hek]
      exact List.mem_cons_self _ _
    · rw [assocSet_cons_ne e rest k v hek]
      exact List.mem_cons_of_mem e ih

theorem mem_assocDelete {α : Type} {m : List (String × α)} {k1 k : String} {v : α}
    (hm : (k1, v) ∈ m) (hne : k1 ≠ k) : (k1, v) ∈ CollisionHandler.assocDelete m k := by
  unfold CollisionHandler.assocDelete
  rw [List.mem_filter]
  exact ⟨hm, by simpa using hne⟩

theorem insertCD_keys (cd : CollisionData) (cur : CollisionHandler.LayerTileCollision)
    (updated : Bool) :
    (CollisionHandler.insertCD cd cur updated).2.1.tileKey = cur.tileKey ∧
    (CollisionHandler.insertCD cd cur updated).2.1.dataKey = cur.dataKey := by
  unfold CollisionHandler.insertCD
  split
  · exact ⟨rfl, rfl⟩
  · split
    · exact ⟨rfl, rfl⟩
    · exact ⟨rfl, rfl⟩

theorem runInserts_keys (reqs : List CollisionHandler.InsertReq)
    (cur : CollisionHandler.LayerTileCollision) (updated : Bool) :
    (CollisionHandler.runInserts reqs cur updated).1.tileKey = cur.tileKey ∧
    (CollisionHandler.runInserts reqs cur updated).1.dataKey = cur.dataKey := by
  induction reqs generalizing cur updated with
  | nil => exact ⟨rfl, rfl⟩
  | cons r rs ih =>
    have hstep := insertCD_keys
      (CollisionHandler.mkCollisionData r.cx r.cy r.cz r.offsetX r.offsetY r.halfWidth
        r.halfHeight r.tile r.tileSize r.priority r.slope) cur updated
    have := ih (CollisionHandler.insertReq r cur updated).2.1
      (CollisionHandler.insertReq r cur updated).2.2
    simp only [CollisionHandler.runInserts, List.foldl_cons] at *
    exact ⟨this.1.trans hstep.1, this.2.trans hstep.2⟩

theorem completeTile_initTile_existing_mem (tiles : CollisionHandler.TilesMap)
    (qkA : String) (xA yA zA : ℕ) (lA : CollisionHandler.Layer)
    (reqs : List CollisionHandler.InsertReq)
    (qkB : String) (xB yB zB : ℕ) (lB : CollisionHandler.Layer)
    (hTK : CollisionHandler.getTileCacheKey qkB lB = CollisionHandler.getTileCacheKey qkA lA)
    (hDK : CollisionHandler.getDataKey qkB lB ≠ CollisionHandler.getDataKey qkA lA) :
    (CollisionHandler.getDataKey qkA lA,
      (CollisionHandler.runInserts reqs
        (CollisionHandler.initTile tiles none qkA xA yA zA lA).1 false).1.data) ∈
      (CollisionHandler.initTile
        (CollisionHandler.completeTile
          (CollisionHandler.runInserts reqs
            (CollisionHandler.initTile tiles none qkA xA yA zA lA).1 false).1
          (CollisionHandler.initTile tiles none qkA xA yA zA lA).2)
        none qkB xB yB zB lB).1.existing := by
  have hkeys := runInserts_keys reqs (CollisionHandler.initTile tiles none qkA xA yA zA lA).1 false
  have htkA : (CollisionHandler.runInserts reqs
      (CollisionHandler.initTile tiles none qkA xA yA zA lA).1 false).1.tileKey =
      CollisionHandler.getTileCacheKey qkA lA := hkeys.1
  have hdkA : (CollisionHandler.runInserts reqs
      (CollisionHandler.initTile tiles none qkA xA yA zA lA).1 false).1.dataKey =
      CollisionHandler.getDataKey qkA lA := hkeys.2
  -- abbreviations
  generalize hA : (CollisionHandler.runInserts reqs
    (CollisionHandler.initTile tiles none qkA xA yA zA lA).1 false).1 = batchA at *
  generalize (CollisionHandler.initTile tiles none qkA xA yA zA lA).2 = tilesA
  -- the committed map under the shared tile cache key
  have hcommit : CollisionHandler.assocGet
      (CollisionHandler.completeTile batchA tilesA) (CollisionHandler.getTileCacheKey qkA lA) =
      some (CollisionHandler.assocSet
        ((CollisionHandler.assocGet tilesA batchA.tileKey).getD []) batchA.dataKey batchA.data) := by
    unfold CollisionHandler.completeTile
    rw [htkA] at *
    exact assocGet_assocSet_self _ _ _
  have hmem1 : (CollisionHandler.getDataKey qkA lA, batchA.data) ∈
      CollisionHandler.assocSet
        ((CollisionHandler.assocGet tilesA batchA.tileKey).getD []) batchA.dataKey batchA.data := by
    rw [hdkA]
    exact mem_assocSet_self _ _ _
  -- initTile for B: unfold and follow clearTile on the shared key
  unfold CollisionHandler.initTile
  simp only
  refine List.mem_cons_of_mem _ ?_
  have hclear : CollisionHandler.assocGet
      (CollisionHandler.clearTile (CollisionHandler.completeTile batchA tilesA) none qkB lB)
      (CollisionHandler.getTileCacheKey qkB lB) =
      some (CollisionHandler.assocDelete
        (CollisionHandler.assocSet
          ((CollisionHandler.assocGet tilesA batchA.tileKey).getD []) batchA.dataKey batchA.data)
        (CollisionHandler.getDataKey qkB lB)) := by
    unfold CollisionHandler.clearTile
    rw [if_neg (by simp)]
    rw [hTK, hcommit]
    simp only
    rw [if_neg ?hne]
    case hne =>
      have hmem2 := mem_assocDelete hmem1 (Ne.symm hDK)
      intro hempty
      rw [List.isEmpty_iff] at hempty
      rw [hempty] at hmem2
      simp at hmem2
    exact assocGet_assocSet_self _ _ _
  rw [hclear]
  simp only [Option.getD_some]
  exact mem_assocDelete hmem1 (Ne.symm hDK)

/-- C4: (a) a 256-size layer registering quadkey `Q` and a 512-size layer
registering `Q`'s parent quadkey produce the same tile-cache-key; (b) the
world-pixel anchor of a 256-tile `insert` equals the anchor of the
corresponding `insert` on the parent 512 tile (coordinates doubled and offset
into the parent grid); (c) after a batch for `(Q, 256-layer)` is committed by
`completeTile`, an `initTile` batch for the 512 layer at the parent quadkey
contains the committed collision data in its existing obstacle set, so
inserts of both granularities are mutually collide-checked. -/
theorem C4_tile_cache_key_folding (l256 l512 : CollisionHandler.Layer)
    (h256 : l256.tileSize = 256) (h512 : l512.tileSize = 512)
    (Q : String) (cx cy ox oy : ℚ) (tX tY : ℕ)
    (tiles : CollisionHandler.TilesMap) (x y z : ℕ)
    (reqs : List CollisionHandler.InsertReq) (xp yp zp : ℕ)
    (hdk : CollisionHandler.getDataKey (Q.dropRight 1) l512 ≠
      CollisionHandler.getDataKey Q l256) :
    CollisionHandler.getTileCacheKey Q l256 =
      CollisionHandler.getTileCacheKey (Q.dropRight 1) l512 ∧
    (CollisionHandler.anchorX cx ox tX 256 =
      CollisionHandler.anchorX (cx + ((tX % 2 : ℕ) : ℚ) * 256) ox (tX / 2) 512 ∧
     CollisionHandler.anchorY cy oy tY 256 =
      CollisionHandler.anchorY (cy + ((tY % 2 : ℕ) : ℚ) * 256) oy (tY / 2) 512) ∧
    (CollisionHandler.getDataKey Q l256,
      (CollisionHandler.runInserts reqs
        (CollisionHandler.initTile tiles none Q x y z l256).1 false).1.data) ∈
      (CollisionHandler.initTile
        (CollisionHandler.completeTile
          (CollisionHandler.runInserts reqs
            (CollisionHandler.initTile tiles none Q x y z l256).1 false).1
          (CollisionHandler.initTile tiles none Q x y z l256).2)
        none (Q.dropRight 1) xp yp zp l512).1.existing := by
  have hkey : CollisionHandler.getTileCacheKey Q l256 =
      CollisionHandler.getTileCacheKey (Q.dropRight 1) l512 := by
    unfold CollisionHandler.getTileCacheKey
    rw [if_pos h256, if_neg (by rw [h512]; norm_num)]
  refine ⟨hkey, ⟨?_, ?_⟩, ?_⟩
  · rw [anchorX_256, anchorX_not256 _ _ _ _ (by norm_num)]
    have h : 2 * (tX / 2) + tX % 2 = tX := Nat.div_add_mod tX 2
    have hq : (2 : ℚ) * ((tX / 2 : ℕ) : ℚ) + ((tX % 2 : ℕ) : ℚ) = (tX : ℚ) := by
      exact_mod_cast congrArg (fun n : ℕ => (n : ℚ)) h
    push_cast
    linarith
  · rw [anchorY_256, anchorY_not256 _ _ _ _ (by norm_num)]
    have h : 2 * (tY / 2) + tY % 2 = tY := Nat.div_add_mod tY 2
    have hq : (2 : ℚ) * ((tY / 2 : ℕ) : ℚ) + ((tY % 2 : ℕ) : ℚ) = (tY : ℚ) := by
      exact_mod_cast congrArg (fun n : ℕ => (n : ℚ)) h
    push_cast
    linarith
  · exact completeTile_initTile_existing_mem tiles Q x y z l256 reqs
      (Q.dropRight 1) xp yp zp l512 (hkey.symm) hdk

/-- C4 (witness): concrete layers (id 1, size 256) and (id 2, size 512),
quadkey "0123" with parent "012". -/
theorem C4_tile_cache_key_folding_witness :
    ((CollisionHandler.Layer.mk 1 256).tileSize = 256 ∧
     (CollisionHandler.Layer.mk 2 512).tileSize = 512 ∧
     CollisionHandler.getDataKey ("0123".dropRight 1) (CollisionHandler.Layer.mk 2 512) ≠
       CollisionHandler.getDataKey "0123" (CollisionHandler.Layer.mk 1 256)) ∧
    (CollisionHandler.getTileCacheKey "0123" (CollisionHandler.Layer.mk 1 256) =
      CollisionHandler.getTileCacheKey ("0123".dropRight 1) (CollisionHandler.Layer.mk 2 512) ∧
    (CollisionHandler.anchorX 7 3 5 256 =
      CollisionHandler.anchorX (7 + ((5 % 2 : ℕ) : ℚ) * 256) 3 (5 / 2) 512 ∧
     CollisionHandler.anchorY 11 2 6 256 =
      CollisionHandler.anchorY (11 + ((6 % 2 : ℕ) : ℚ) * 256) 2 (6 / 2) 512) ∧
    (CollisionHandler.getDataKey "0123" (CollisionHandler.Layer.mk 1 256),
      (CollisionHandler.runInserts []
        (CollisionHandler.initTile [] none "0123" 1 2 4 (CollisionHandler.Layer.mk 1 256)).1
        false).1.data) ∈
      (CollisionHandler.initTile
        (CollisionHandler.completeTile
          (CollisionHandler.runInserts []
            (CollisionHandler.initTile [] none "0123" 1 2 4
              (CollisionHandler.Layer.mk 1 256)).1 false).1
          (CollisionHandler.initTile [] none "0123" 1 2 4
            (CollisionHandler.Layer.mk 1 256)).2)
        none ("0123".dropRight 1) 0 1 3 (CollisionHandler.Layer.mk 2 512)).1.existing) :=
  ⟨⟨rfl, rfl, by decide⟩,
    C4_tile_cache_key_folding (CollisionHandler.Layer.mk 1 256)
      (CollisionHandler.Layer.mk 2 512) rfl rfl "0123" 7 11 3 2 5 6 [] 1 2 4 [] 0 1 3
      (by decide)⟩

theorem posInToggleGo_le (fuel : ℕ) : ∀ p s e sz : ℕ,
    CollisionHandler.posInToggleGo fuel p s e sz = true → s ≤ p := by
  induction fuel with
  | zero => intro p s e sz h; simp [CollisionHandler.posInToggleGo] at h
  | succ n ih =>
    intro p s e sz h
    rw [CollisionHandler.posInToggleGo] at h
    by_cases hse : s < e
    · rw [if_pos hse, Bool.or_eq_true, decide_eq_true_eq] at h
      rcases h with h | h
      · omega
      · have := ih p (s + sz) e sz h
        omega
    · rw [if_neg hse] at h
      exact absurd h (by simp)

theorem posInToggleGo_lt (fuel : ℕ) : ∀ p s e sz : ℕ,
    CollisionHandler.posInToggleGo fuel p s e sz = true → p < e := by
  induction fuel with
  | zero => intro p s e sz h; simp [CollisionHandler.posInToggleGo] at h
  | succ n ih =>
    intro p s e sz h
    rw [CollisionHandler.posInToggleGo] at h
    by_cases hse : s < e
    · rw [if_pos hse, Bool.or_eq_true, decide_eq_true_eq] at h
      rcases h with h | h
      · omega
      · exact ih p (s + sz) e sz h
    · rw [if_neg hse] at h
      exact absurd h (by simp)

theorem posInToggle_le {p s e sz : ℕ} (h : CollisionHandler.posInToggle p s e sz = true) :
    s ≤ p := posInToggleGo_le (e - s) p s e sz h

theorem posInToggle_lt {p s e sz : ℕ} (h : CollisionHandler.posInToggle p s e sz = true) :
    p < e := posInToggleGo_lt (e - s) p s e sz h

theorem posInToggle_self (s e sz : ℕ) (h : s < e) :
    CollisionHandler.posInToggle s s e sz = true := by
  unfold CollisionHandler.posInToggle
  have he : e - s = (e - s - 1) + 1 := by omega
  rw [he, CollisionHandler.posInToggleGo, if_pos h]
  simp

theorem attrsDisjointSz_symm (sz : ℕ → ℕ) : Symmetric (CollisionHandler.attrsDisjointSz sz) := by
  intro a b h hab p hp
  exact h hab.symm p ⟨hp.2, hp.1⟩

/-- Attribute ranges whose `[start, stop)` intervals are disjoint toggle
disjoint position sets (used to discharge disjointness at concrete inputs). -/
theorem attrsDisjointSz_of_stop_le (sz : ℕ → ℕ) (a b : Attr) (h : a.stop ≤ b.start) :
    CollisionHandler.attrsDisjointSz sz a b := by
  intro _ p hp
  have h1 := posInToggle_lt hp.1
  have h2 := posInToggle_le hp.2
  omega

theorem toggleRangeGo_apply (fuel : ℕ) : ∀ (data : ℕ → ℕ) (s e sz p : ℕ), 0 < sz →
    CollisionHandler.toggleRangeGo fuel data s e sz p =
      (if CollisionHandler.posInToggleGo fuel p s e sz then data p ^^^ 1 else data p) := by
  induction fuel with
  | zero =>
    intro data s e sz p hsz
    simp [CollisionHandler.toggleRangeGo, CollisionHandler.posInToggleGo]
  | succ n ih =>
    intro data s e sz p hsz
    rw [CollisionHandler.toggleRangeGo, CollisionHandler.posInToggleGo]
    by_cases hse : s < e
    · rw [if_pos hse, if_pos hse]
      rw [ih _ (s + sz) e sz p hsz]
      by_cases hp : p = s
      · subst hp
        have hnot : CollisionHandler.posInToggleGo n p (p + sz) e sz = false := by
          cases h : CollisionHandler.posInToggleGo n p (p + sz) e sz
          · rfl
          · have := posInToggleGo_le n p (p + sz) e sz h
            omega
        rw [hnot]
        simp
      · simp only [if_neg hp, decide_eq_true_eq]
        have : (decide (p = s) || CollisionHandler.posInToggleGo n p (s + sz) e sz) =
            CollisionHandler.posInToggleGo n p (s + sz) e sz := by
          simp [hp]
        rw [this]
    · rw [if_neg hse, if_neg hse]
      simp

theorem toggleRange_apply (data : ℕ → ℕ) (s e sz p : ℕ) (hsz : 0 < sz) :
    CollisionHandler.toggleRange data s e sz p =
      (if CollisionHandler.posInToggle p s e sz then data p ^^^ 1 else data p) :=
  toggleRangeGo_apply (e - s) data s e sz p hsz

theorem bit_cases (x : ℕ) : x &&& 1 = 0 ∨ x &&& 1 = 1 := by
  rw [Nat.and_one_is_mod]
  omega

theorem xor_one_bit (x : ℕ) : (x ^^^ 1) &&& 1 = 1 - (x &&& 1) := by
  rw [Nat.and_xor_distrib_right, Nat.and_one_is_mod, Nat.and_one_is_mod]
  rcases Nat.mod_two_eq_zero_or_one x with h | h
  · rw [h]; rfl
  · rw [h]; rfl

theorem storeSet_self (st : CollisionHandler.BufferStore) (i : ℕ)
    (bf : CollisionHandler.Buffer) : CollisionHandler.storeSet st i bf i = bf := by
  simp [CollisionHandler.storeSet]

theorem storeSet_other (st : CollisionHandler.BufferStore) (i : ℕ)
    (bf : CollisionHandler.Buffer) (j : ℕ) (h : j ≠ i) :
    CollisionHandler.storeSet st i bf j = st j := by
  simp [CollisionHandler.storeSet, h]

theorem applyAttr_size (inter : Bool) (a : Attr) (st : CollisionHandler.BufferStore)
    (u : Bool) (b : ℕ) :
    ((CollisionHandler.applyAttr inter a st u).1 b).size = (st b).size := by
  unfold CollisionHandler.applyAttr
  split
  · dsimp only
    by_cases hb : b = a.buffer
    · subst hb
      rw [storeSet_self]
    · rw [storeSet_other _ _ _ _ hb]
  · rfl

theorem applyAttr_frame (inter : Bool) (a : Attr) (st : CollisionHandler.BufferStore)
    (u : Bool) (b p : ℕ) (hsz : 0 < (st a.buffer).size)
    (h : a.buffer = b → CollisionHandler.posInToggle p a.start a.stop (st a.buffer).size = false) :
    ((CollisionHandler.applyAttr inter a st u).1 b).data p = (st b).data p := by
  unfold CollisionHandler.applyAttr
  split
  · dsimp only
    by_cases hb : b = a.buffer
    · subst hb
      rw [storeSet_self]
      dsimp only
      rw [toggleRange_apply _ _ _ _ _ hsz, h rfl]
      simp
    · rw [storeSet_other _ _ _ _ hb]
  · rfl

theorem applyAttr_bit (inter : Bool) (a : Attr) (st : CollisionHandler.BufferStore)
    (u : Bool) (hss : a.start < a.stop) (hsz : 0 < (st a.buffer).size) :
    ((CollisionHandler.applyAttr inter a st u).1 a.buffer).data a.start &&& 1 =
      (if inter then 0 else 1) := by
  unfold CollisionHandler.applyAttr
  rcases bit_cases ((st a.buffer).data a.start) with hv | hv
  · have hvis : ((st a.buffer).data a.start &&& 1 == 1) = false := by
      rw [hv]; rfl
    rw [hvis]
    cases inter with
    | false =>
      rw [if_pos (by rfl)]
      dsimp only
      rw [storeSet_self]
      dsimp only
      rw [toggleRange_apply _ _ _ _ _ hsz, posInToggle_self _ _ _ hss]
      simp [xor_one_bit, hv]
      rw [Nat.and_one_is_mod] at hv
      omega
    | true =>
      rw [if_neg (by simp)]
      simp [hv]
  · have hvis : ((st a.buffer).data a.start &&& 1 == 1) = true := by
      rw [hv]; rfl
    rw [hvis]
    cases inter with
    | false =>
      rw [if_neg (by simp)]
      simp [hv]
    | true =>
      rw [if_pos (by rfl)]
      dsimp only
      rw [storeSet_self]
      dsimp only
      rw [toggleRange_apply _ _ _ _ _ hsz, posInToggle_self _ _ _ hss]
      simp [xor_one_bit, hv]
      rw [Nat.and_one_is_mod] at hv
      omega

theorem applyAttr_noop (inter : Bool) (a : Attr) (st : CollisionHandler.BufferStore)
    (u : Bool) (h : (st a.buffer).data a.start &&& 1 = (if inter then 0 else 1)) :
    CollisionHandler.applyAttr inter a st u = (st, u) := by
  unfold CollisionHandler.applyAttr
  cases inter with
  | false =>
    have h1 : (st a.buffer).data a.start &&& 1 = 1 := by simpa using h
    rw [if_neg (by simp [h1])]
  | true =>
    have h1 : (st a.buffer).data a.start &&& 1 = 0 := by simpa using h
    rw [if_neg (by simp [h1])]

theorem applyAttrs_size (inter : Bool) (attrs : List Attr) :
    ∀ (st : CollisionHandler.BufferStore) (u : Bool) (b : ℕ),
    ((CollisionHandler.applyAttrs inter attrs st u).1 b).size = (st b).size := by
  induction attrs with
  | nil => intro st u b; rfl
  | cons a t ih =>
    intro st u b
    show ((CollisionHandler.applyAttrs inter t (CollisionHandler.applyAttr inter a st u).1
      (CollisionHandler.applyAttr inter a st u).2).1 b).size = (st b).size
    rw [ih]
    exact applyAttr_size inter a st u b

theorem applyAttrs_frame (inter : Bool) (attrs : List Attr) (sz : ℕ → ℕ) :
    ∀ (st : CollisionHandler.BufferStore) (u : Bool) (b p : ℕ),
    (∀ bb, (st bb).size = sz bb) →
    (∀ a ∈ attrs, 0 < sz a.buffer) →
    (∀ a ∈ attrs, a.buffer = b →
      CollisionHandler.posInToggle p a.start a.stop (sz a.buffer) = false) →
    ((CollisionHandler.applyAttrs inter attrs st u).1 b).data p = (st b).data p := by
  induction attrs with
  | nil => intro st u b p _ _ _; rfl
  | cons a t ih =>
    intro st u b p hsz hszpos h
    show ((CollisionHandler.applyAttrs inter t (CollisionHandler.applyAttr inter a st u).1
      (CollisionHandler.applyAttr inter a st u).2).1 b).data p = (st b).data p
    rw [ih _ _ _ _ (fun bb => (applyAttr_size inter a st u bb).trans (hsz bb))
      (fun c hc => hszpos c (List.mem_cons_of_mem a hc))
      (fun c hc => h c (List.mem_cons_of_mem a hc))]
    exact applyAttr_frame inter a st u b p
      (by rw [hsz]; exact hszpos a (List.mem_cons_self a t))
      (fun hab => by rw [hsz]; exact h a (List.mem_cons_self a t) hab)

theorem applyAttrs_bit (inter : Bool) (attrs : List Attr) (sz : ℕ → ℕ) :
    ∀ (st : CollisionHandler.BufferStore) (u : Bool),
    (∀ bb, (st bb).size = sz bb) →
    (∀ a ∈ attrs, a.start < a.stop) →
    (∀ a ∈ attrs, 0 < sz a.buffer) →
    attrs.Pairwise (CollisionHandler.attrsDisjointSz sz) →
    ∀ a ∈ attrs, ((CollisionHandler.applyAttrs inter attrs st u).1 a.buffer).data a.start &&& 1 =
      (if inter then 0 else 1) := by
  induction attrs with
  | nil => intro st u _ _ _ _ a ha; exact absurd ha (List.not_mem_nil a)
  | cons c t ih =>
    intro st u hsz hwf hszpos hdisj a ha
    show ((CollisionHandler.applyAttrs inter t (CollisionHandler.applyAttr inter c st u).1
      (CollisionHandler.applyAttr inter c st u).2).1 a.buffer).data a.start &&& 1 = _
    rcases List.mem_cons.mp ha with rfl | hat
    · rw [applyAttrs_frame inter t sz _ _ a.buffer a.start
        (fun bb => (applyAttr_size inter a st u bb).trans (hsz bb))
        (fun d hd => hszpos d (List.mem_cons_of_mem a hd)) ?hframe]
      · exact applyAttr_bit inter a st u (hwf a (List.mem_cons_self a t))
          (by rw [hsz]; exact hszpos a (List.mem_cons_self a t))
      case hframe =>
        intro d hd hdb
        have hrel := (List.pairwise_cons.mp hdisj).1 d hd
        cases hpos : CollisionHandler.posInToggle a.start d.start d.stop (sz d.buffer)
        · rfl
        · exact absurd
            ⟨posInToggle_self a.start a.stop (sz a.buffer) (hwf a (List.mem_cons_self a t)), hpos⟩
            (hrel hdb.symm a.start)
    · exact ih _ _ (fun bb => (applyAttr_size inter c st u bb).trans (hsz bb))
        (fun d hd => hwf d (List.mem_cons_of_mem c hd))
        (fun d hd => hszpos d (List.mem_cons_of_mem c hd))
        (List.pairwise_cons.mp hdisj).2 a hat

theorem applyAttrs_noop (inter : Bool) (attrs : List Attr)
    (st : CollisionHandler.BufferStore) (u : Bool)
    (h : ∀ a ∈ attrs, (st a.buffer).data a.start &&& 1 = (if inter then 0 else 1)) :
    CollisionHandler.applyAttrs inter attrs st u = (st, u) := by
  induction attrs with
  | nil => rfl
  | cons a t ih =>
    show CollisionHandler.applyAttrs inter t (CollisionHandler.applyAttr inter a st u).1
      (CollisionHandler.applyAttr inter a st u).2 = (st, u)
    rw [applyAttr_noop inter a st u (h a (List.mem_cons_self a t))]
    exact ih (fun d hd => h d (List.mem_cons_of_mem a hd))

theorem sweepDecision_nil (c : CollisionData) :
    CollisionHandler.sweepDecision [] [] c = false := by
  unfold CollisionHandler.sweepDecision CollisionHandler.intersects
  cases c.slope.isSome <;> simp

theorem sweepFold_sets_indep (l : List CollisionData) :
    ∀ (vp vm : List CollisionData) (st st2 : CollisionHandler.BufferStore) (u u2 : Bool),
    ((l.foldl CollisionHandler.sweepStep ⟨vp, vm, st, u⟩).visibleItemsViewportAligned =
      (l.foldl CollisionHandler.sweepStep ⟨vp, vm, st2, u2⟩).visibleItemsViewportAligned) ∧
    ((l.foldl CollisionHandler.sweepStep ⟨vp, vm, st, u⟩).visibleItemsMapAligned =
      (l.foldl CollisionHandler.sweepStep ⟨vp, vm, st2, u2⟩).visibleItemsMapAligned) := by
  induction l with
  | nil => intro vp vm st st2 u u2; exact ⟨rfl, rfl⟩
  | cons b t ih =>
    intro vp vm st st2 u u2
    simp only [List.foldl_cons, CollisionHandler.sweepStep]
    exact ih _ _ _ _ _ _

theorem sweepFold_size (l : List CollisionData) :
    ∀ (vp vm : List CollisionData) (st : CollisionHandler.BufferStore) (u : Bool) (b : ℕ),
    ((l.foldl CollisionHandler.sweepStep ⟨vp, vm, st, u⟩).store b).size = (st b).size := by
  induction l with
  | nil => intro vp vm st u b; rfl
  | cons c t ih =>
    intro vp vm st u b
    simp only [List.foldl_cons, CollisionHandler.sweepStep]
    exact (ih _ _ _ _ b).trans (applyAttrs_size _ c.attrs st u b)

theorem sweepFold_frame (l : List CollisionData) (sz : ℕ → ℕ) :
    ∀ (vp vm : List CollisionData) (st : CollisionHandler.BufferStore) (u : Bool) (b p : ℕ),
    (∀ bb, (st bb).size = sz bb) →
    (∀ c ∈ l, ∀ a ∈ c.attrs, 0 < sz a.buffer) →
    (∀ c ∈ l, ∀ a ∈ c.attrs, a.buffer = b →
      CollisionHandler.posInToggle p a.start a.stop (sz a.buffer) = false) →
    ((l.foldl CollisionHandler.sweepStep ⟨vp, vm, st, u⟩).store b).data p = (st b).data p := by
  induction l with
  | nil => intro vp vm st u b p _ _ _; rfl
  | cons c t ih =>
    intro vp vm st u b p hsz hszpos h
    simp only [List.foldl_cons, CollisionHandler.sweepStep]
    rw [ih _ _ _ _ b p
      (fun bb => (applyAttrs_size _ c.attrs st u bb).trans (hsz bb))
      (fun d hd => hszpos d (List.mem_cons_of_mem c hd))
      (fun d hd => h d (List.mem_cons_of_mem c hd))]
    exact applyAttrs_frame _ c.attrs sz st u b p hsz
      (hszpos c (List.mem_cons_self c t)) (h c (List.mem_cons_self c t))

theorem sweepFold_run2 (l : List CollisionData) (sz : ℕ → ℕ) :
    ∀ (vp vm : List CollisionData) (st : CollisionHandler.BufferStore) (u : Bool),
    (∀ bb, (st bb).size = sz bb) →
    (∀ c ∈ l, ∀ a ∈ c.attrs, a.start < a.stop) →
    (∀ c ∈ l, ∀ a ∈ c.attrs, 0 < sz a.buffer) →
    ((l.flatMap fun c => c.attrs).Pairwise (CollisionHandler.attrsDisjointSz sz)) →
    (l.foldl CollisionHandler.sweepStep
      ⟨vp, vm, (l.foldl CollisionHandler.sweepStep ⟨vp, vm, st, u⟩).store, false⟩).store =
      (l.foldl CollisionHandler.sweepStep ⟨vp, vm, st, u⟩).store ∧
    (l.foldl CollisionHandler.sweepStep
      ⟨vp, vm, (l.foldl CollisionHandler.sweepStep ⟨vp, vm, st, u⟩).store, false⟩).updated =
      false := by
  induction l with
  | nil => intro vp vm st u _ _ _ _; exact ⟨rfl, rfl⟩
  | cons c t ih =>
    intro vp vm st u hsz hwf hszpos hdisj
    have hdisj1 : c.attrs.Pairwise (CollisionHandler.attrsDisjointSz sz) :=
      ((List.pairwise_append.mp (by simpa using hdisj)).1)
    have hdisjc : ∀ a ∈ c.attrs, ∀ d ∈ t, ∀ b ∈ d.attrs,
        CollisionHandler.attrsDisjointSz sz a b := by
      intro a ha d hd b hb
      refine (List.pairwise_append.mp (by simpa using hdisj)).2.2 a ha b ?_
      rw [List.mem_flatMap]
      exact ⟨d, hd, hb⟩
    have hdisjt : ((t.flatMap fun d => d.attrs).Pairwise
        (CollisionHandler.attrsDisjointSz sz)) :=
      (List.pairwise_append.mp (by simpa using hdisj)).2.1
    simp only [List.foldl_cons, CollisionHandler.sweepStep]
    have hsz1 : ∀ bb, (((CollisionHandler.applyAttrs
        (CollisionHandler.sweepDecision vp vm c) c.attrs st u).1) bb).size = sz bb :=
      fun bb => (applyAttrs_size _ c.attrs st u bb).trans (hsz bb)
    -- the bits of c's attrs in the store after run 1 equal the decision outcome
    have hbits : ∀ a ∈ c.attrs,
        (((t.foldl CollisionHandler.sweepStep
          ⟨(if c.slope.isSome = true then vp
            else if CollisionHandler.sweepDecision vp vm c = true then vp else vp ++ [c]),
           (if c.slope.isSome = true then
              (if CollisionHandler.sweepDecision vp vm c = true then vm else vm ++ [c])
            else vm),
           (CollisionHandler.applyAttrs (CollisionHandler.sweepDecision vp vm c) c.attrs st u).1,
           (CollisionHandler.applyAttrs (CollisionHandler.sweepDecision vp vm c) c.attrs st u).2⟩).store
          a.buffer).data a.start) &&& 1 =
        (if CollisionHandler.sweepDecision vp vm c then 0 else 1) := by
      intro a ha
      rw [sweepFold_frame t sz _ _ _ _ a.buffer a.start hsz1
        (fun d hd => hszpos d (List.mem_cons_of_mem c hd)) ?hfr]
      · exact applyAttrs_bit _ c.attrs sz st u hsz
          (hwf c (List.mem_cons_self c t)) (hszpos c (List.mem_cons_self c t)) hdisj1 a ha
      case hfr =>
        intro d hd b hb hbb
        have hrel := hdisjc a ha d hd b hb
        cases hpos : CollisionHandler.posInToggle a.start b.start b.stop (sz b.buffer)
        · rfl
        · exact absurd
            ⟨posInToggle_self a.start a.stop (sz a.buffer)
              (hwf c (List.mem_cons_self c t) a ha), hpos⟩
            (hrel hbb.symm a.start)
    rw [applyAttrs_noop _ c.attrs _ false hbits]
    exact ih _ _ _ _ hsz1 (fun d hd => hwf d (List.mem_cons_of_mem c hd))
      (fun d hd => hszpos d (List.mem_cons_of_mem c hd)) hdisjt

theorem sortInsert_perm (a : CollisionData) (l : List CollisionData) :
    (CollisionHandler.sortInsert a l).Perm (a :: l) := by
  induction l with
  | nil => exact List.Perm.refl _
  | cons b t ih =>
    unfold CollisionHandler.sortInsert
    split
    · exact ((ih.cons b).trans (List.Perm.swap a b t))
    · exact List.Perm.refl _

theorem foldl_sortInsert_perm (l : List CollisionData) :
    ∀ acc : List CollisionData,
    (l.foldl (fun acc a => CollisionHandler.sortInsert a acc) acc).Perm (acc ++ l) := by
  induction l with
  | nil => intro acc; simp
  | cons a t ih =>
    intro acc
    refine (ih (CollisionHandler.sortInsert a acc)).trans ?_
    refine (((sortInsert_perm a acc).append_right t).trans ?_)
    exact List.perm_middle.symm

theorem sortByPriority_perm (l : List CollisionData) :
    (CollisionHandler.sortByPriority l).Perm l := by
  simpa using foldl_sortInsert_perm l []

/-- C3: running the phase-2 resolution pass (`updateTiles`) twice on the same
viewport tiles, with unchanged collision cache, projection (camera transform)
and display scale, leaves every buffer exactly as the first pass left it and
returns `false` the second time (no visibility toggles, no dirty flags).
Hypotheses: every candidate's attribute range is nonempty, its buffer stride
is positive, and distinct attribute ranges toggle disjoint buffer positions
(`sz` is the stride map of the store). -/
theorem C3_phase2_idempotent (project : ℚ → ℚ → ℚ × ℚ)
    (tiles : List CollisionHandler.ViewportTile) (tilesMap : CollisionHandler.TilesMap)
    (displayScale : ℚ) (st : CollisionHandler.BufferStore) (sz : ℕ → ℕ)
    (hsz : ∀ bb, (st bb).size = sz bb)
    (hwf : ∀ c ∈ CollisionHandler.collectCollisionData project tiles tilesMap displayScale,
      ∀ a ∈ c.attrs, a.start < a.stop)
    (hszpos : ∀ c ∈ CollisionHandler.collectCollisionData project tiles tilesMap displayScale,
      ∀ a ∈ c.attrs, 0 < sz a.buffer)
    (hdisj : (((CollisionHandler.collectCollisionData project tiles tilesMap
        displayScale).flatMap fun c => c.attrs).Pairwise
        (CollisionHandler.attrsDisjointSz sz))) :
    CollisionHandler.updateTiles project tiles tilesMap displayScale
      (CollisionHandler.updateTiles project tiles tilesMap displayScale st).1 =
    ((CollisionHandler.updateTiles project tiles tilesMap displayScale st).1, false) := by
  unfold CollisionHandler.updateTiles CollisionHandler.updateTilesSweep
  have hperm := sortByPriority_perm
    (CollisionHandler.collectCollisionData project tiles tilesMap displayScale)
  have hrun := sweepFold_run2
    (CollisionHandler.sortByPriority
      (CollisionHandler.collectCollisionData project tiles tilesMap displayScale)) sz
    [] [] st false hsz
    (fun c hc => hwf c (hperm.mem_iff.mp hc))
    (fun c hc => hszpos c (hperm.mem_iff.mp hc))
    ((hdisj.perm (hperm.flatMap_right fun c => c.attrs).symm
      (fun hab => attrsDisjointSz_symm sz hab)))
  exact Prod.ext hrun.1 hrun.2

theorem intersects_nil (c : CollisionData) : CollisionHandler.intersects c [] = false := rfl

theorem not_posInToggle_of_disjoint {sz : ℕ → ℕ} {a b : Attr}
    (hrel : CollisionHandler.attrsDisjointSz sz a b) (hss : a.start < a.stop)
    (hbb : b.buffer = a.buffer) :
    CollisionHandler.posInToggle a.start b.start b.stop (sz b.buffer) = false := by
  cases hpos : CollisionHandler.posInToggle a.start b.start b.stop (sz b.buffer)
  · rfl
  · exact absurd ⟨posInToggle_self a.start a.stop (sz a.buffer) hss, hpos⟩
      (hrel hbb.symm a.start)

theorem sortByPriority_pair_of_lt {c1 c2 : CollisionData} (h : c1.priority < c2.priority) :
    CollisionHandler.sortByPriority [c1, c2] = [c1, c2] ∧
    CollisionHandler.sortByPriority [c2, c1] = [c1, c2] := by
  unfold CollisionHandler.sortByPriority
  simp only [List.foldl_cons, List.foldl_nil]
  constructor
  · show CollisionHandler.sortInsert c2 [c1] = [c1, c2]
    unfold CollisionHandler.sortInsert
    rw [if_pos (by simpa using h.le)]
    rfl
  · show CollisionHandler.sortInsert c1 [c2] = [c1, c2]
    unfold CollisionHandler.sortInsert
    rw [if_neg (by simpa using h.not_le)]

theorem intersects_pair_symm (a b : CollisionData) :
    CollisionHandler.intersects a [b] = CollisionHandler.intersects b [a] := by
  have hbool : ∀ x y : Bool, (x = true ↔ y = true) → x = y := by decide
  apply hbool
  unfold CollisionHandler.intersects
  simp only [List.any_cons, List.any_nil, Bool.or_false, List.any_eq_true]
  constructor
  · rintro ⟨b2, hb2, b1, hb1, hi⟩
    exact ⟨b1, hb1, b2, hb2, by rw [boxesIntersect_symm]; exact hi⟩
  · rintro ⟨b2, hb2, b1, hb1, hi⟩
    exact ⟨b1, hb1, b2, hb2, by rw [boxesIntersect_symm]; exact hi⟩

theorem sweep_pair_result (c1 c2 : CollisionData) (st : CollisionHandler.BufferStore)
    (sz : ℕ → ℕ) (hsz : ∀ bb, (st bb).size = sz bb)
    (hover : CollisionHandler.intersects c2 [c1] = true)
    (hslope : ¬(c1.slope.isSome = true ∧ c2.slope.isSome = true))
    (hwf : ∀ a ∈ c1.attrs ++ c2.attrs, a.start < a.stop)
    (hszpos : ∀ a ∈ c1.attrs ++ c2.attrs, 0 < sz a.buffer)
    (hdisj : (c1.attrs ++ c2.attrs).Pairwise (CollisionHandler.attrsDisjointSz sz)) :
    (∀ a ∈ c1.attrs,
      ((([c1, c2].foldl CollisionHandler.sweepStep ⟨[], [], st, false⟩).store
        a.buffer).data a.start) &&& 1 = 1) ∧
    (∀ a ∈ c2.attrs,
      ((([c1, c2].foldl CollisionHandler.sweepStep ⟨[], [], st, false⟩).store
        a.buffer).data a.start) &&& 1 = 0) := by
  have hwf1 : ∀ a ∈ c1.attrs, a.start < a.stop :=
    fun a ha => hwf a (List.mem_append_left _ ha)
  have hwf2 : ∀ a ∈ c2.attrs, a.start < a.stop :=
    fun a ha => hwf a (List.mem_append_right _ ha)
  have hszpos1 : ∀ a ∈ c1.attrs, 0 < sz a.buffer :=
    fun a ha => hszpos a (List.mem_append_left _ ha)
  have hszpos2 : ∀ a ∈ c2.attrs, 0 < sz a.buffer :=
    fun a ha => hszpos a (List.mem_append_right _ ha)
  have hd1 : c1.attrs.Pairwise (CollisionHandler.attrsDisjointSz sz) :=
    (List.pairwise_append.mp hdisj).1
  have hd2p : c2.attrs.Pairwise (CollisionHandler.attrsDisjointSz sz) :=
    (List.pairwise_append.mp hdisj).2.1
  have hcross : ∀ a ∈ c1.attrs, ∀ b ∈ c2.attrs, CollisionHandler.attrsDisjointSz sz a b :=
    (List.pairwise_append.mp hdisj).2.2
  have hsz1 : ∀ bb, ((CollisionHandler.applyAttrs false c1.attrs st false).1 bb).size = sz bb :=
    fun bb => (applyAttrs_size false c1.attrs st false bb).trans (hsz bb)
  have hbits1 : ∀ a ∈ c1.attrs,
      (((CollisionHandler.applyAttrs false c1.attrs st false).1 a.buffer).data a.start) &&& 1 = 1 := by
    intro a ha
    have := applyAttrs_bit false c1.attrs sz st false hsz hwf1 hszpos1 hd1 a ha
    simpa using this
  cases hc1 : c1.slope.isSome with
  | false =>
    have hdec2 : CollisionHandler.sweepDecision ([] ++ [c1]) [] c2 = true := by
      unfold CollisionHandler.sweepDecision
      cases c2.slope.isSome <;> simp [hover]
    simp only [List.foldl_cons, List.foldl_nil, CollisionHandler.sweepStep,
      sweepDecision_nil, hc1, Bool.false_eq_true, if_false, hdec2, if_true]
    constructor
    · intro a ha
      rw [applyAttrs_frame true c2.attrs sz _ _ a.buffer a.start hsz1 hszpos2 ?hfr]
      · exact hbits1 a ha
      case hfr =>
        intro b hb hbb
        exact not_posInToggle_of_disjoint (hcross a ha b hb) (hwf1 a ha) hbb
    · intro a ha
      have := applyAttrs_bit true c2.attrs sz
        (CollisionHandler.applyAttrs false c1.attrs st false).1
        (CollisionHandler.applyAttrs false c1.attrs st false).2 hsz1 hwf2 hszpos2 hd2p a ha
      simpa using this
  | true =>
    have hc2 : c2.slope.isSome = false := by
      cases hx : c2.slope.isSome
      · rfl
      · exact absurd ⟨hc1, hx⟩ hslope
    have hdec2 : CollisionHandler.sweepDecision [] ([] ++ [c1]) c2 = true := by
      unfold CollisionHandler.sweepDecision
      rw [hc2]
      simp [hover, intersects_nil]
    simp only [List.foldl_cons, List.foldl_nil, CollisionHandler.sweepStep,
      sweepDecision_nil, hc1, Bool.false_eq_true, if_false, if_true, hdec2]
    constructor
    · intro a ha
      rw [applyAttrs_frame true c2.attrs sz _ _ a.buffer a.start hsz1 hszpos2 ?hfr]
      · exact hbits1 a ha
      case hfr =>
        intro b hb hbb
        exact not_posInToggle_of_disjoint (hcross a ha b hb) (hwf1 a ha) hbb
    · intro a ha
      have := applyAttrs_bit true c2.attrs sz
        (CollisionHandler.applyAttrs false c1.attrs st false).1
        (CollisionHandler.applyAttrs false c1.attrs st false).2 hsz1 hwf2 hszpos2 hd2p a ha
      simpa using this

theorem sweep_pair_both_slope (c1 c2 : CollisionData) (st : CollisionHandler.BufferStore)
    (sz : ℕ → ℕ) (hsz : ∀ bb, (st bb).size = sz bb)
    (hc1 : c1.slope.isSome = true) (hc2 : c2.slope.isSome = true)
    (hwf : ∀ a ∈ c1.attrs ++ c2.attrs, a.start < a.stop)
    (hszpos : ∀ a ∈ c1.attrs ++ c2.attrs, 0 < sz a.buffer)
    (hdisj : (c1.attrs ++ c2.attrs).Pairwise (CollisionHandler.attrsDisjointSz sz)) :
    (∀ a ∈ c1.attrs,
      ((([c1, c2].foldl CollisionHandler.sweepStep ⟨[], [], st, false⟩).store
        a.buffer).data a.start) &&& 1 = 1) ∧
    (∀ a ∈ c2.attrs,
      ((([c1, c2].foldl CollisionHandler.sweepStep ⟨[], [], st, false⟩).store
        a.buffer).data a.start) &&& 1 = 1) := by
  have hwf1 : ∀ a ∈ c1.attrs, a.start < a.stop :=
    fun a ha => hwf a (List.mem_append_left _ ha)
  have hwf2 : ∀ a ∈ c2.attrs, a.start < a.stop :=
    fun a ha => hwf a (List.mem_append_right _ ha)
  have hszpos1 : ∀ a ∈ c1.attrs, 0 < sz a.buffer :=
    fun a ha => hszpos a (List.mem_append_left _ ha)
  have hszpos2 : ∀ a ∈ c2.attrs, 0 < sz a.buffer :=
    fun a ha => hszpos a (List.mem_append_right _ ha)
  have hd1 : c1.attrs.Pairwise (CollisionHandler.attrsDisjointSz sz) :=
    (List.pairwise_append.mp hdisj).1
  have hd2p : c2.attrs.Pairwise (CollisionHandler.attrsDisjointSz sz) :=
    (List.pairwise_append.mp hdisj).2.1
  have hcross : ∀ a ∈ c1.attrs, ∀ b ∈ c2.attrs, CollisionHandler.attrsDisjointSz sz a b :=
    (List.pairwise_append.mp hdisj).2.2
  have hsz1 : ∀ bb, ((CollisionHandler.applyAttrs false c1.attrs st false).1 bb).size = sz bb :=
    fun bb => (applyAttrs_size false c1.attrs st false bb).trans (hsz bb)
  have hbits1 : ∀ a ∈ c1.attrs,
      (((CollisionHandler.applyAttrs false c1.attrs st false).1 a.buffer).data a.start) &&& 1 = 1 := by
    intro a ha
    have := applyAttrs_bit false c1.attrs sz st false hsz hwf1 hszpos1 hd1 a ha
    simpa using this
  have hdec2 : CollisionHandler.sweepDecision [] ([] ++ [c1]) c2 = false := by
    unfold CollisionHandler.sweepDecision
    rw [hc2]
    exact intersects_nil c2
  simp only [List.foldl_cons, List.foldl_nil, CollisionHandler.sweepStep,
    sweepDecision_nil, hc1, Bool.false_eq_true, if_false, if_true, hdec2]
  constructor
  · intro a ha
    rw [applyAttrs_frame false c2.attrs sz _ _ a.buffer a.start hsz1 hszpos2 ?hfr]
    · exact hbits1 a ha
    case hfr =>
      intro b hb hbb
      exact not_posInToggle_of_disjoint (hcross a ha b hb) (hwf1 a ha) hbb
  · intro a ha
    have := applyAttrs_bit false c2.attrs sz
      (CollisionHandler.applyAttrs false c1.attrs st false).1
      (CollisionHandler.applyAttrs false c1.attrs st false).2 hsz1 hwf2 hszpos2 hd2p a ha
    simpa using this

theorem collect_slope2_eq :
    CollisionHandler.collectCollisionData exampleProject exampleViewport
      exampleTilesMapSlope2 1 =
    [⟨[⟨-9, 9, -9, 9⟩], [⟨0, 0, 1⟩], 1, 0, 0, 0, 0, 0, 0, 0, some (1, 0)⟩,
     ⟨[⟨-6, 12, -9, 9⟩], [⟨0, 1, 2⟩], 2, 0, 0, 0, 0, 0, 0, 0, some (1, 0)⟩] := by
  unfold CollisionHandler.collectCollisionData CollisionHandler.updateTileCollisionData
    exampleProject exampleViewport exampleTilesMapSlope2 exampleEntry
    CollisionHandler.assocGet
  norm_num

/-- C2 (counterexample): two overlapping slope-aligned candidates with
priorities 1 < 2 registered in the collision cache; after the `updateTiles`
pass the lower-priority candidate keeps visibility bit 1 (it is NOT hidden),
refuting the claim for such pairs. -/
theorem C2_counterexample :
    CollisionHandler.collectCollisionData exampleProject exampleViewport
      exampleTilesMapSlope2 1 =
      [⟨[⟨-9, 9, -9, 9⟩], [⟨0, 0, 1⟩], 1, 0, 0, 0, 0, 0, 0, 0, some (1, 0)⟩,
       ⟨[⟨-6, 12, -9, 9⟩], [⟨0, 1, 2⟩], 2, 0, 0, 0, 0, 0, 0, 0, some (1, 0)⟩] ∧
    CollisionHandler.intersects
      (⟨[⟨-9, 9, -9, 9⟩], [⟨0, 0, 1⟩], 1, 0, 0, 0, 0, 0, 0, 0, some (1, 0)⟩ : CollisionData)
      [⟨[⟨-6, 12, -9, 9⟩], [⟨0, 1, 2⟩], 2, 0, 0, 0, 0, 0, 0, 0, some (1, 0)⟩] = true ∧
    ((1 : ℚ) < 2) ∧
    (((CollisionHandler.updateTiles exampleProject exampleViewport exampleTilesMapSlope2 1
      exampleStore).1 0).data 1) &&& 1 = 1 :=
  ⟨collect_slope2_eq, by decide, by norm_num, by decide⟩

/-- C2 (amended): for two candidates registered in the collision cache whose
screen-space boxes overlap and whose priorities satisfy `p1 < p2`, PROVIDED
they are not both slope-aligned (two slope-aligned candidates are never
checked against each other, see the sweep), after the `updateTiles` pass the
`p1` candidate is visible (bit 1) and the `p2` candidate is hidden (bit 0),
regardless of registration order. Attribute ranges are assumed nonempty, with
positive strides and pairwise disjoint toggled positions. -/
theorem C2_priority_ordering (project : ℚ → ℚ → ℚ × ℚ)
    (tiles : List CollisionHandler.ViewportTile) (tilesMap : CollisionHandler.TilesMap)
    (displayScale : ℚ) (st : CollisionHandler.BufferStore) (sz : ℕ → ℕ)
    (c1 c2 : CollisionData)
    (hsz : ∀ bb, (st bb).size = sz bb)
    (hcollect : CollisionHandler.collectCollisionData project tiles tilesMap displayScale =
        [c1, c2] ∨
      CollisionHandler.collectCollisionData project tiles tilesMap displayScale = [c2, c1])
    (hpri : c1.priority < c2.priority)
    (hover : CollisionHandler.intersects c1 [c2] = true)
    (hslope : ¬(c1.slope.isSome = true ∧ c2.slope.isSome = true))
    (hwf : ∀ a ∈ c1.attrs ++ c2.attrs, a.start < a.stop)
    (hszpos : ∀ a ∈ c1.attrs ++ c2.attrs, 0 < sz a.buffer)
    (hdisj : (c1.attrs ++ c2.attrs).Pairwise (CollisionHandler.attrsDisjointSz sz)) :
    (∀ a ∈ c1.attrs,
      (((CollisionHandler.updateTiles project tiles tilesMap displayScale st).1
        a.buffer).data a.start) &&& 1 = 1) ∧
    (∀ a ∈ c2.attrs,
      (((CollisionHandler.updateTiles project tiles tilesMap displayScale st).1
        a.buffer).data a.start) &&& 1 = 0) := by
  have hover2 : CollisionHandler.intersects c2 [c1] = true := by
    rw [← intersects_pair_symm]
    exact hover
  have hpair := sortByPriority_pair_of_lt hpri
  unfold CollisionHandler.updateTiles CollisionHandler.updateTilesSweep
  rcases hcollect with hc | hc
  · rw [hc, hpair.1]
    exact sweep_pair_result c1 c2 st sz hsz hover2 hslope hwf hszpos hdisj
  · rw [hc, hpair.2]
    exact sweep_pair_result c1 c2 st sz hsz hover2 hslope hwf hszpos hdisj

theorem collect_mixed_eq :
    CollisionHandler.collectCollisionData exampleProject exampleViewport
      exampleTilesMapMixed 1 =
    [⟨[⟨-9, 9, -9, 9⟩], [⟨0, 0, 1⟩], 1, 0, 0, 0, 0, 0, 0, 0, none⟩,
     ⟨[⟨-8, 10, -9, 9⟩], [⟨0, 1, 2⟩], 2, 0, 0, 0, 0, 0, 0, 0, some (1, 0)⟩] := by
  unfold CollisionHandler.collectCollisionData CollisionHandler.updateTileCollisionData
    exampleProject exampleViewport exampleTilesMapMixed exampleEntry
    CollisionHandler.assocGet
  norm_num

/-- C2 (witness): a viewport-aligned priority-1 candidate and an overlapping
slope-marked priority-2 candidate from the mixed example cache. -/
theorem C2_priority_ordering_witness :
    ((∀ bb, (exampleStore bb).size = exampleSz bb) ∧
     (CollisionHandler.collectCollisionData exampleProject exampleViewport
        exampleTilesMapMixed 1 =
        [⟨[⟨-9, 9, -9, 9⟩], [⟨0, 0, 1⟩], 1, 0, 0, 0, 0, 0, 0, 0, none⟩,
         ⟨[⟨-8, 10, -9, 9⟩], [⟨0, 1, 2⟩], 2, 0, 0, 0, 0, 0, 0, 0, some (1, 0)⟩] ∨
      CollisionHandler.collectCollisionData exampleProject exampleViewport
        exampleTilesMapMixed 1 =
        [⟨[⟨-8, 10, -9, 9⟩], [⟨0, 1, 2⟩], 2, 0, 0, 0, 0, 0, 0, 0, some (1, 0)⟩,
         ⟨[⟨-9, 9, -9, 9⟩], [⟨0, 0, 1⟩], 1, 0, 0, 0, 0, 0, 0, 0, none⟩])) ∧
    (∀ a ∈ (CollisionData.mk [⟨-9, 9, -9, 9⟩] [⟨0, 0, 1⟩] 1 0 0 0 0 0 0 0 none).attrs,
      (((CollisionHandler.updateTiles exampleProject exampleViewport exampleTilesMapMixed 1
        exampleStore).1 a.buffer).data a.start) &&& 1 = 1) ∧
    (∀ a ∈ (CollisionData.mk [⟨-8, 10, -9, 9⟩] [⟨0, 1, 2⟩] 2 0 0 0 0 0 0 0
        (some (1, 0))).attrs,
      (((CollisionHandler.updateTiles exampleProject exampleViewport exampleTilesMapMixed 1
        exampleStore).1 a.buffer).data a.start) &&& 1 = 0) := by
  have hdisj : ((CollisionData.mk [⟨-9, 9, -9, 9⟩] [⟨0, 0, 1⟩] 1 0 0 0 0 0 0 0 none).attrs ++
      (CollisionData.mk [⟨-8, 10, -9, 9⟩] [⟨0, 1, 2⟩] 2 0 0 0 0 0 0 0
        (some (1, 0))).attrs).Pairwise (CollisionHandler.attrsDisjointSz exampleSz) := by
    show ([⟨0, 0, 1⟩, ⟨0, 1, 2⟩] : List Attr).Pairwise
      (CollisionHandler.attrsDisjointSz exampleSz)
    refine List.Pairwise.cons ?_ (List.pairwise_singleton _ _)
    intro b hb
    rw [List.mem_singleton] at hb
    subst hb
    exact attrsDisjointSz_of_stop_le exampleSz ⟨0, 0, 1⟩ ⟨0, 1, 2⟩ (by norm_num)
  have h := C2_priority_ordering exampleProject exampleViewport exampleTilesMapMixed 1
    exampleStore exampleSz
    ⟨[⟨-9, 9, -9, 9⟩], [⟨0, 0, 1⟩], 1, 0, 0, 0, 0, 0, 0, 0, none⟩
    ⟨[⟨-8, 10, -9, 9⟩], [⟨0, 1, 2⟩], 2, 0, 0, 0, 0, 0, 0, 0, some (1, 0)⟩
    (fun _ => rfl) (Or.inl collect_mixed_eq) (by norm_num) (by decide) (by decide)
    (by decide) (by decide) hdisj
  exact ⟨⟨fun _ => rfl, Or.inl collect_mixed_eq⟩, h.1, h.2⟩

/-- C8: the phase-2 class-based overlap checking is asymmetric — a
slope-aligned candidate is tested only against the accepted viewport-aligned
set and never against already-accepted slope-aligned boxes; hence two
mutually overlapping slope-aligned candidates (any priorities `p1 < p2`, any
registration order) both end up visible after the `updateTiles` pass. -/
theorem C8_slope_class_asymmetry (project : ℚ → ℚ → ℚ × ℚ)
    (tiles : List CollisionHandler.ViewportTile) (tilesMap : CollisionHandler.TilesMap)
    (displayScale : ℚ) (st : CollisionHandler.BufferStore) (sz : ℕ → ℕ)
    (c1 c2 : CollisionData)
    (hsz : ∀ bb, (st bb).size = sz bb)
    (hcollect : CollisionHandler.collectCollisionData project tiles tilesMap displayScale =
        [c1, c2] ∨
      CollisionHandler.collectCollisionData project tiles tilesMap displayScale = [c2, c1])
    (hpri : c1.priority < c2.priority)
    (hover : CollisionHandler.intersects c1 [c2] = true)
    (hc1 : c1.slope.isSome = true) (hc2 : c2.slope.isSome = true)
    (hwf : ∀ a ∈ c1.attrs ++ c2.attrs, a.start < a.stop)
    (hszpos : ∀ a ∈ c1.attrs ++ c2.attrs, 0 < sz a.buffer)
    (hdisj : (c1.attrs ++ c2.attrs).Pairwise (CollisionHandler.attrsDisjointSz sz)) :
    (∀ a ∈ c1.attrs,
      (((CollisionHandler.updateTiles project tiles tilesMap displayScale st).1
        a.buffer).data a.start) &&& 1 = 1) ∧
    (∀ a ∈ c2.attrs,
      (((CollisionHandler.updateTiles project tiles tilesMap displayScale st).1
        a.buffer).data a.start) &&& 1 = 1) := by
  have hpair := sortByPriority_pair_of_lt hpri
  unfold CollisionHandler.updateTiles CollisionHandler.updateTilesSweep
  rcases hcollect with hc | hc
  · rw [hc, hpair.1]
    exact sweep_pair_both_slope c1 c2 st sz hsz hc1 hc2 hwf hszpos hdisj
  · rw [hc, hpair.2]
    exact sweep_pair_both_slope c1 c2 st sz hsz hc1 hc2 hwf hszpos hdisj

theorem collect_slope_eq :
    CollisionHandler.collectCollisionData exampleProject exampleViewport
      exampleTilesMapSlope 1 =
    [⟨[⟨-9, 9, -9, 9⟩], [⟨0, 0, 1⟩], 1, 0, 0, 0, 0, 0, 0, 0, some (1, 0)⟩,
     ⟨[⟨-7, 11, -9, 9⟩], [⟨0, 1, 2⟩], 2, 0, 0, 0, 0, 0, 0, 0, some (1, 0)⟩] := by
  unfold CollisionHandler.collectCollisionData CollisionHandler.updateTileCollisionData
    exampleProject exampleViewport exampleTilesMapSlope exampleEntry
    CollisionHandler.assocGet
  norm_num

/-- C8 (witness): two overlapping slope-marked candidates with priorities
1 < 2 from the slope example cache; both end visible. -/
theorem C8_slope_class_asymmetry_witness :
    ((∀ bb, (exampleStore bb).size = exampleSz bb) ∧
     (CollisionHandler.collectCollisionData exampleProject exampleViewport
        exampleTilesMapSlope 1 =
        [⟨[⟨-9, 9, -9, 9⟩], [⟨0, 0, 1⟩], 1, 0, 0, 0, 0, 0, 0, 0, some (1, 0)⟩,
         ⟨[⟨-7, 11, -9, 9⟩], [⟨0, 1, 2⟩], 2, 0, 0, 0, 0, 0, 0, 0, some (1, 0)⟩] ∨
      CollisionHandler.collectCollisionData exampleProject exampleViewport
        exampleTilesMapSlope 1 =
        [⟨[⟨-7, 11, -9, 9⟩], [⟨0, 1, 2⟩], 2, 0, 0, 0, 0, 0, 0, 0, some (1, 0)⟩,
         ⟨[⟨-9, 9, -9, 9⟩], [⟨0, 0, 1⟩], 1, 0, 0, 0, 0, 0, 0, 0, some (1, 0)⟩])) ∧
    (∀ a ∈ (CollisionData.mk [⟨-9, 9, -9, 9⟩] [⟨0, 0, 1⟩] 1 0 0 0 0 0 0 0
        (some (1, 0))).attrs,
      (((CollisionHandler.updateTiles exampleProject exampleViewport exampleTilesMapSlope 1
        exampleStore).1 a.buffer).data a.start) &&& 1 = 1) ∧
    (∀ a ∈ (CollisionData.mk [⟨-7, 11, -9, 9⟩] [⟨0, 1, 2⟩] 2 0 0 0 0 0 0 0
        (some (1, 0))).attrs,
      (((CollisionHandler.updateTiles exampleProject exampleViewport exampleTilesMapSlope 1
        exampleStore).1 a.buffer).data a.start) &&& 1 = 1) := by
  have hdisj : ((CollisionData.mk [⟨-9, 9, -9, 9⟩] [⟨0, 0, 1⟩] 1 0 0 0 0 0 0 0
      (some (1, 0))).attrs ++
      (CollisionData.mk [⟨-7, 11, -9, 9⟩] [⟨0, 1, 2⟩] 2 0 0 0 0 0 0 0
        (some (1, 0))).attrs).Pairwise (CollisionHandler.attrsDisjointSz exampleSz) := by
    show ([⟨0, 0, 1⟩, ⟨0, 1, 2⟩] : List Attr).Pairwise
      (CollisionHandler.attrsDisjointSz exampleSz)
    refine List.Pairwise.cons ?_ (List.pairwise_singleton _ _)
    intro b hb
    rw [List.mem_singleton] at hb
    subst hb
    exact attrsDisjointSz_of_stop_le exampleSz ⟨0, 0, 1⟩ ⟨0, 1, 2⟩ (by norm_num)
  have h := C8_slope_class_asymmetry exampleProject exampleViewport exampleTilesMapSlope 1
    exampleStore exampleSz
    ⟨[⟨-9, 9, -9, 9⟩], [⟨0, 0, 1⟩], 1, 0, 0, 0, 0, 0, 0, 0, some (1, 0)⟩
    ⟨[⟨-7, 11, -9, 9⟩], [⟨0, 1, 2⟩], 2, 0, 0, 0, 0, 0, 0, 0, some (1, 0)⟩
    (fun _ => rfl) (Or.inl collect_slope_eq) (by norm_num) (by decide) (by decide)
    (by decide) (by decide) (by decide) hdisj
  exact ⟨⟨fun _ => rfl, Or.inl collect_slope_eq⟩, h.1, h.2⟩

/-- C3 (witness): the two-candidate mixed example cache; the second pass
changes nothing and returns `false`. -/
theorem C3_phase2_idempotent_witness :
    ((∀ bb, (exampleStore bb).size = exampleSz bb) ∧
     (∀ c ∈ CollisionHandler.collectCollisionData exampleProject exampleViewport
        exampleTilesMapMixed 1, ∀ a ∈ c.attrs, a.start < a.stop) ∧
     (∀ c ∈ CollisionHandler.collectCollisionData exampleProject exampleViewport
        exampleTilesMapMixed 1, ∀ a ∈ c.attrs, 0 < exampleSz a.buffer)) ∧
    CollisionHandler.updateTiles exampleProject exampleViewport exampleTilesMapMixed 1
      (CollisionHandler.updateTiles exampleProject exampleViewport exampleTilesMapMixed 1
        exampleStore).1 =
    ((CollisionHandler.updateTiles exampleProject exampleViewport exampleTilesMapMixed 1
        exampleStore).1, false) := by
  have hdisj : (((CollisionHandler.collectCollisionData exampleProject exampleViewport
      exampleTilesMapMixed 1).flatMap fun c => c.attrs).Pairwise
      (CollisionHandler.attrsDisjointSz exampleSz)) := by
    have he : ((CollisionHandler.collectCollisionData exampleProject exampleViewport
        exampleTilesMapMixed 1).flatMap fun c => c.attrs) =
        [⟨0, 0, 1⟩, ⟨0, 1, 2⟩] := by decide
    rw [he]
    refine List.Pairwise.cons ?_ (List.pairwise_singleton _ _)
    intro b hb
    rw [List.mem_singleton] at hb
    subst hb
    exact attrsDisjointSz_of_stop_le exampleSz ⟨0, 0, 1⟩ ⟨0, 1, 2⟩ (by norm_num)
  exact ⟨⟨fun _ => rfl, by decide, by decide⟩,
    C3_phase2_idempotent exampleProject exampleViewport exampleTilesMapMixed 1
      exampleStore exampleSz (fun _ => rfl) (by decide) (by decide) hdisj⟩

theorem runCalls_pending_head (ts : List ℕ) : ∀ f : ℕ,
    (CollisionHandler.runCalls ts (some f)).head? = some f := by
  induction ts with
  | nil => intro f; rfl
  | cons u us ih =>
    intro f
    rw [CollisionHandler.runCalls]
    by_cases h : f ≤ u
    · rw [if_pos h]
      rfl
    · rw [if_neg h]
      have hupd : CollisionHandler.update (some f) u = some f := rfl
      rw [hupd]
      exact ih f

theorem runCalls_pending_single (ts : List ℕ) : ∀ f : ℕ, (∀ u ∈ ts, u < f) →
    CollisionHandler.runCalls ts (some f) = [f] := by
  induction ts with
  | nil => intro f _; rfl
  | cons u us ih =>
    intro f h
    rw [CollisionHandler.runCalls]
    rw [if_neg (by have := h u (List.mem_cons_self u us); omega)]
    have hupd : CollisionHandler.update (some f) u = some f := rfl
    rw [hupd]
    exact ih f (fun v hv => h v (List.mem_cons_of_mem u hv))

/-- C7 (counterexample): `update` calls at times 0 and 100 ms produce a single
resolution pass at time 150 = 0 + 150 — the 150 ms delay is measured from the
first call of the burst, not from the latest call (100 + 150 = 250), refuting
the trailing-debounce part of the claim. -/
theorem C7_counterexample :
    CollisionHandler.runCalls [0, 100] none = [150] ∧
    (150 : ℕ) ≠ 100 + CollisionHandler.UPDATE_DELAY_MS :=
  ⟨rfl, by decide⟩

/-- C7 (amended): `update` schedules at most one pending resolution pass at a
time — a call made while one is scheduled leaves the timer untouched — and
the scheduled pass runs a fixed 150 ms after the call that scheduled it (the
first call of a burst, since the timer is not reset by later calls); all
further calls made before the fire time fold into that single pass, so rapid
repeated calls do not trigger one resolution per call. -/
theorem C7_debounce (f now t : ℕ) (ts : List ℕ)
    (hin : ∀ u ∈ ts, u < t + CollisionHandler.UPDATE_DELAY_MS) :
    CollisionHandler.update (some f) now = some f ∧
    (CollisionHandler.runCalls (t :: ts) none).head? =
      some (t + CollisionHandler.UPDATE_DELAY_MS) ∧
    CollisionHandler.runCalls (t :: ts) none = [t + CollisionHandler.UPDATE_DELAY_MS] := by
  refine ⟨rfl, ?_, ?_⟩
  · rw [CollisionHandler.runCalls]
    exact runCalls_pending_head ts (t + CollisionHandler.UPDATE_DELAY_MS)
  · rw [CollisionHandler.runCalls]
    exact runCalls_pending_single ts (t + CollisionHandler.UPDATE_DELAY_MS) hin

/-- C7 (witness): calls at 0, 10 and 100 ms collapse into one pass at 150 ms. -/
theorem C7_debounce_witness :
    (∀ u ∈ [10, 100], u < 0 + CollisionHandler.UPDATE_DELAY_MS) ∧
    (CollisionHandler.update (some 7) 3 = some 7 ∧
     (CollisionHandler.runCalls [0, 10, 100] none).head? =
       some (0 + CollisionHandler.UPDATE_DELAY_MS) ∧
     CollisionHandler.runCalls [0, 10, 100] none =
       [0 + CollisionHandler.UPDATE_DELAY_MS]) :=
  ⟨by decide, C7_debounce 7 3 0 [10, 100] (by decide)⟩

end XyzMaps

namespace XyzMaps
namespace MVT

theorem loadGeometryLoop_nil (cmd : ℕ) (len : ℤ) (x y : ℤ)
    (lines : List (List (ℤ × ℤ))) (line : Option (List (ℤ × ℤ))) :
    loadGeometryLoop [] cmd len x y lines line = Except.ok (pushLine lines line) := by
  rw [loadGeometryLoop.eq_def]

theorem closePolygonLine_isSome (line : Option (List (ℤ × ℤ))) :
    (closePolygonLine line).isSome = line.isSome := by
  cases line <;> rfl

theorem step_pair1 (a b : ℕ) (ts2 : List ℕ) (cmd : ℕ) (len0 : ℤ) (x y : ℤ)
    (lines : List (List (ℤ × ℤ))) (line : Option (List (ℤ × ℤ)))
    (hlen : ¬(len0 ≤ 0)) (h1 : cmd = 1) :
    loadGeometryLoop (a :: b :: ts2) cmd len0 x y lines line =
      loadGeometryLoop ts2 cmd (len0 - 1) (x + svarint a) (y + svarint b)
        (pushLine lines line) (some [(x + svarint a, y + svarint b)]) := by
  rw [loadGeometryLoop.eq_def]
  simp only [if_neg hlen, if_pos (Or.inl h1 : cmd = 1 ∨ cmd = 2), if_pos h1]
  split
  · next a2 b2 ts22 hts =>
    rw [if_neg hlen] at hts
    obtain ⟨ha, hb, hts2⟩ : a = a2 ∧ b = b2 ∧ ts2 = ts22 := by simpa using hts
    rw [← ha, ← hb, ← hts2]
  · next hz =>
    rw [if_neg hlen] at hz
    exact (hz a b ts2 rfl).elim

theorem step_pair2 (a b : ℕ) (ts2 : List ℕ) (cmd : ℕ) (len0 : ℤ) (x y : ℤ)
    (lines : List (List (ℤ × ℤ))) (l : List (ℤ × ℤ))
    (hlen : ¬(len0 ≤ 0)) (h2 : cmd = 2) :
    loadGeometryLoop (a :: b :: ts2) cmd len0 x y lines (some l) =
      loadGeometryLoop ts2 cmd (len0 - 1) (x + svarint a) (y + svarint b)
        lines (some (l ++ [(x + svarint a, y + svarint b)])) := by
  rw [loadGeometryLoop.eq_def]
  have hne1 : cmd ≠ 1 := by rw [h2]; decide
  simp only [if_neg hlen, if_pos (Or.inr h2 : cmd = 1 ∨ cmd = 2), if_neg hne1]
  split
  · next a2 b2 ts22 hts =>
    rw [if_neg hlen] at hts
    obtain ⟨ha, hb, hts2⟩ : a = a2 ∧ b = b2 ∧ ts2 = ts22 := by simpa using hts
    rw [← ha, ← hb, ← hts2]
  · next hz =>
    rw [if_neg hlen] at hz
    exact (hz a b ts2 rfl).elim

theorem step_move (t a b : ℕ) (ts2 : List ℕ) (cmd0 : ℕ) (len0 : ℤ) (x y : ℤ)
    (lines : List (List (ℤ × ℤ))) (line : Option (List (ℤ × ℤ)))
    (hlen : len0 ≤ 0) (hmod : t % 8 = 1) :
    loadGeometryLoop (t :: a :: b :: ts2) cmd0 len0 x y lines line =
      loadGeometryLoop ts2 1 (((t / 8 : ℕ) : ℤ) - 1) (x + svarint a) (y + svarint b)
        (pushLine lines line) (some [(x + svarint a, y + svarint b)]) := by
  rw [loadGeometryLoop.eq_def]
  simp only [if_pos hlen, hmod, true_or, or_true, if_true]
  split
  · next a2 b2 ts22 hts =>
    rw [if_pos hlen] at hts
    obtain ⟨ha, hb, hts2⟩ : a = a2 ∧ b = b2 ∧ ts2 = ts22 := by simpa using hts
    rw [← ha, ← hb, ← hts2]
  · next hz =>
    rw [if_pos hlen] at hz
    exact (hz a b ts2 rfl).elim

theorem step_line (t a b : ℕ) (ts2 : List ℕ) (cmd0 : ℕ) (len0 : ℤ) (x y : ℤ)
    (lines : List (List (ℤ × ℤ))) (l : List (ℤ × ℤ))
    (hlen : len0 ≤ 0) (hmod : t % 8 = 2) :
    loadGeometryLoop (t :: a :: b :: ts2) cmd0 len0 x y lines (some l) =
      loadGeometryLoop ts2 2 (((t / 8 : ℕ) : ℤ) - 1) (x + svarint a) (y + svarint b)
        lines (some (l ++ [(x + svarint a, y + svarint b)])) := by
  rw [loadGeometryLoop.eq_def]
  simp only [if_pos hlen, hmod, true_or, or_true, if_true]
  split
  · next a2 b2 ts22 hts =>
    rw [if_pos hlen] at hts
    obtain ⟨ha, hb, hts2⟩ : a = a2 ∧ b = b2 ∧ ts2 = ts22 := by simpa using hts
    rw [if_neg (by decide : ¬((2 : ℕ) = 1)), ← ha, ← hb, ← hts2]
  · next hz =>
    rw [if_pos hlen] at hz
    exact (hz a b ts2 rfl).elim

theorem step_close (t : ℕ) (rest : List ℕ) (cmd0 : ℕ) (len0 : ℤ) (x y : ℤ)
    (lines : List (List (ℤ × ℤ))) (line : Option (List (ℤ × ℤ)))
    (hlen : len0 ≤ 0) (hmod : t % 8 = 7) :
    loadGeometryLoop (t :: rest) cmd0 len0 x y lines line =
      loadGeometryLoop rest 7 (((t / 8 : ℕ) : ℤ) - 1) x y lines
        (closePolygonLine line) := by
  rw [loadGeometryLoop.eq_def]
  simp only [if_pos hlen, hmod]
  simp only [if_true]
  rw [if_neg (by decide : ¬((7 : ℕ) = 1 ∨ (7 : ℕ) = 2))]

theorem step_bad (t : ℕ) (rest : List ℕ) (cmd0 : ℕ) (len0 : ℤ) (x y : ℤ)
    (lines : List (List (ℤ × ℤ))) (line : Option (List (ℤ × ℤ)))
    (hlen : len0 ≤ 0) (h1 : t % 8 ≠ 1) (h2 : t % 8 ≠ 2) (h7 : t % 8 ≠ 7) :
    loadGeometryLoop (t :: rest) cmd0 len0 x y lines line =
      Except.error ("unknown command " ++ toString (t % 8)) := by
  rw [loadGeometryLoop.eq_def]
  simp only [if_pos hlen]
  rw [if_neg (by tauto : ¬(t % 8 = 1 ∨ t % 8 = 2)), if_neg h7]

theorem loadGeometryLoop_pairs (coords : List (ℕ × ℕ)) :
    ∀ (suffix : List ℕ) (cmd : ℕ), cmd = 1 ∨ cmd = 2 →
    ∀ (x y : ℤ) (lines : List (List (ℤ × ℤ))) (l : List (ℤ × ℤ)),
    ∃ x2 y2 lines2 l2,
      loadGeometryLoop ((coords.flatMap fun p => [p.1, p.2]) ++ suffix) cmd
        ((coords.length : ℕ) : ℤ) x y lines (some l) =
      loadGeometryLoop suffix cmd 0 x2 y2 lines2 (some l2) := by
  induction coords with
  | nil =>
    intro suffix cmd hcmd x y lines l
    refine ⟨x, y, lines, l, ?_⟩
    simp
  | cons p ps ih =>
    intro suffix cmd hcmd x y lines l
    have hlen : ¬((((p :: ps).length : ℕ) : ℤ) ≤ 0) := by
      simp only [List.length_cons]
      push_cast
      omega
    have hshape : ((p :: ps).flatMap fun q => [q.1, q.2]) ++ suffix =
        p.1 :: p.2 :: ((ps.flatMap fun q => [q.1, q.2]) ++ suffix) := by
      simp
    have hlen1 : ((((p :: ps).length : ℕ) : ℤ)) - 1 = ((ps.length : ℕ) : ℤ) := by
      simp only [List.length_cons]
      push_cast
      ring
    rw [hshape]
    rcases hcmd with h1 | h2
    · rw [step_pair1 p.1 p.2 _ cmd _ x y lines (some l) hlen h1, hlen1]
      exact ih suffix cmd (Or.inl h1) _ _ _ _
    · rw [step_pair2 p.1 p.2 _ cmd _ x y lines l hlen h2, hlen1]
      exact ih suffix cmd (Or.inr h2) _ _ _ _

theorem loadGeometryLoop_encode (cs : List (ℕ × List (ℕ × ℕ))) :
    ∀ (hasLine : Bool) (suffix : List ℕ) (cmd : ℕ) (len : ℤ) (x y : ℤ)
      (lines : List (List (ℤ × ℤ))) (line : Option (List (ℤ × ℤ))),
    len ≤ 0 → line.isSome = hasLine → wfCmds hasLine cs = true →
    ∃ cmd2 len2 x2 y2 lines2 line2, len2 ≤ 0 ∧
      loadGeometryLoop (encodeCmds cs ++ suffix) cmd len x y lines line =
      loadGeometryLoop suffix cmd2 len2 x2 y2 lines2 line2 := by
  induction cs with
  | nil =>
    intro hasLine suffix cmd len x y lines line hlen hsome hwf
    refine ⟨cmd, len, x, y, lines, line, hlen, ?_⟩
    simp [encodeCmds]
  | cons c cs ih =>
    intro hasLine suffix cmd len x y lines line hlen hsome hwf
    obtain ⟨id, coords⟩ := c
    have hshape : encodeCmds ((id, coords) :: cs) ++ suffix =
        (id + 8 * coords.length) ::
          ((coords.flatMap fun p => [p.1, p.2]) ++ (encodeCmds cs ++ suffix)) := by
      simp [encodeCmds]
    rw [hshape]
    by_cases hid1 : id = 1
    · have hne : coords ≠ [] := by
        subst hid1
        intro hceq
        subst hceq
        simp [wfCmds] at hwf
      obtain ⟨c0, ctail, rfl⟩ : ∃ c0 ctail, coords = c0 :: ctail := by
        cases coords with
        | nil => exact absurd rfl hne
        | cons c0 ctail => exact ⟨c0, ctail, rfl⟩
      have hwf2 : wfCmds true cs = true := by
        subst hid1
        simp only [wfCmds, if_true, Bool.and_eq_true] at hwf
        exact hwf.2
      have hmod : (id + 8 * (c0 :: ctail).length) % 8 = 1 := by
        subst hid1
        simp [Nat.add_mul_mod_self_left]
      have hflat : ((c0 :: ctail).flatMap fun p => [p.1, p.2]) ++
          (encodeCmds cs ++ suffix) =
          c0.1 :: c0.2 :: ((ctail.flatMap fun p => [p.1, p.2]) ++
            (encodeCmds cs ++ suffix)) := by
        simp
      have hdiv : (((id + 8 * (c0 :: ctail).length) / 8 : ℕ) : ℤ) - 1 =
          ((ctail.length : ℕ) : ℤ) := by
        subst hid1
        have : (1 + 8 * (c0 :: ctail).length) / 8 = (c0 :: ctail).length := by
          rw [Nat.add_mul_div_left 1 _ (by norm_num : 0 < 8)]
          norm_num
        rw [this]
        simp only [List.length_cons]
        push_cast
        ring
      rw [hflat, step_move _ c0.1 c0.2 _ cmd len x y lines line hlen hmod, hdiv]
      obtain ⟨x2, y2, lines2, l2, hpairs⟩ :=
        loadGeometryLoop_pairs ctail (encodeCmds cs ++ suffix) 1 (Or.inl rfl)
          (x + svarint c0.1) (y + svarint c0.2) (pushLine lines line)
          [(x + svarint c0.1, y + svarint c0.2)]
      rw [hpairs]
      exact ih true suffix 1 0 x2 y2 lines2 (some l2) (by norm_num) rfl hwf2
    · by_cases hid2 : id = 2
      · have hwfparts : coords ≠ [] ∧ hasLine = true ∧ wfCmds true cs = true := by
          subst hid2
          simp only [wfCmds, if_neg (by decide : ¬((2 : ℕ) = 1)), if_true,
            Bool.and_eq_true, Bool.not_eq_true'] at hwf
          refine ⟨?_, hwf.1.2, hwf.2⟩
          intro hceq
          subst hceq
          simp at hwf
        obtain ⟨hne, hhl, hwf2⟩ := hwfparts
        obtain ⟨c0, ctail, rfl⟩ : ∃ c0 ctail, coords = c0 :: ctail := by
          cases coords with
          | nil => exact absurd rfl hne
          | cons c0 ctail => exact ⟨c0, ctail, rfl⟩
        obtain ⟨l0, rfl⟩ : ∃ l0, line = some l0 := by
          cases line with
          | none => rw [hhl] at hsome; exact absurd hsome (by simp)
          | some l0 => exact ⟨l0, rfl⟩
        have hmod : (id + 8 * (c0 :: ctail).length) % 8 = 2 := by
          subst hid2
          simp [Nat.add_mul_mod_self_left]
        have hflat : ((c0 :: ctail).flatMap fun p => [p.1, p.2]) ++
            (encodeCmds cs ++ suffix) =
            c0.1 :: c0.2 :: ((ctail.flatMap fun p => [p.1, p.2]) ++
              (encodeCmds cs ++ suffix)) := by
          simp
        have hdiv : (((id + 8 * (c0 :: ctail).length) / 8 : ℕ) : ℤ) - 1 =
            ((ctail.length : ℕ) : ℤ) := by
          subst hid2
          have : (2 + 8 * (c0 :: ctail).length) / 8 = (c0 :: ctail).length := by
            rw [Nat.add_mul_div_left 2 _ (by norm_num : 0 < 8)]
            norm_num
          rw [this]
          simp only [List.length_cons]
          push_cast
          ring
        rw [hflat, step_line _ c0.1 c0.2 _ cmd len x y lines l0 hlen hmod, hdiv]
        obtain ⟨x2, y2, lines2, l2, hpairs⟩ :=
          loadGeometryLoop_pairs ctail (encodeCmds cs ++ suffix) 2 (Or.inr rfl)
            (x + svarint c0.1) (y + svarint c0.2) lines
            (l0 ++ [(x + svarint c0.1, y + svarint c0.2)])
        rw [hpairs]
        exact ih true suffix 2 0 x2 y2 lines2 (some l2) (by norm_num) rfl hwf2
      · by_cases hid7 : id = 7
        · have hwfparts : coords = [] ∧ wfCmds hasLine cs = true := by
            subst hid7
            simp only [wfCmds, if_neg (by decide : ¬((7 : ℕ) = 1)),
              if_neg (by decide : ¬((7 : ℕ) = 2)), if_true,
              Bool.and_eq_true, List.isEmpty_iff] at hwf
            exact hwf
          obtain ⟨rfl, hwf2⟩ := hwfparts
          have hmod : (id + 8 * ([] : List (ℕ × ℕ)).length) % 8 = 7 := by
            subst hid7
            simp
          have hflat : (([] : List (ℕ × ℕ)).flatMap fun p => [p.1, p.2]) ++
              (encodeCmds cs ++ suffix) = encodeCmds cs ++ suffix := by
            simp
          rw [hflat, step_close _ _ cmd len x y lines line hlen hmod]
          refine ih hasLine suffix 7 _ x y lines (closePolygonLine line) ?_ ?_ hwf2
          · subst hid7
            norm_num
          · rw [closePolygonLine_isSome, hsome]
        · exfalso
          simp only [wfCmds, if_neg hid1, if_neg hid2, if_neg hid7] at hwf
          exact absurd hwf (by simp)

end MVT

/-- C10: unknown geometry command is fatal for the tile's decode. During
vector-tile geometry decoding (loadGeometry), a token stream built from
well-formed moveTo(1)/lineTo(2)/closePolygon(7) commands decodes without
error, while appending a command token whose id is not 1, 2 or 7 makes
decoding abort with the error "unknown command <id>". -/
theorem C10_unknown_command_fatal :
    (∀ cs : List (ℕ × List (ℕ × ℕ)), MVT.wfCmds false cs = true →
      ∃ v, MVT.loadGeometry (MVT.encodeCmds cs) = Except.ok v) ∧
    (∀ (cs : List (ℕ × List (ℕ × ℕ))) (bad : ℕ) (rest : List ℕ),
      MVT.wfCmds false cs = true →
      bad % 8 ≠ 1 → bad % 8 ≠ 2 → bad % 8 ≠ 7 →
      MVT.loadGeometry (MVT.encodeCmds cs ++ bad :: rest) =
        Except.error ("unknown command " ++ toString (bad % 8))) := by
  constructor
  · intro cs hwf
    obtain ⟨cmd2, len2, x2, y2, lines2, line2, hle, heq⟩ :=
      MVT.loadGeometryLoop_encode cs false [] 1 0 0 0 [] none (by norm_num) rfl hwf
    rw [List.append_nil] at heq
    refine ⟨MVT.pushLine lines2 line2, ?_⟩
    rw [MVT.loadGeometry, heq, MVT.loadGeometryLoop_nil]
  · intro cs bad rest hwf h1 h2 h7
    obtain ⟨cmd2, len2, x2, y2, lines2, line2, hle, heq⟩ :=
      MVT.loadGeometryLoop_encode cs false (bad :: rest) 1 0 0 0 [] none
        (by norm_num) rfl hwf
    rw [MVT.loadGeometry, heq, MVT.step_bad bad rest cmd2 len2 x2 y2 lines2 line2 hle h1 h2 h7]

theorem C10_unknown_command_fatal_witness :
    MVT.wfCmds false [(1, [(3, 4)]), (2, [(1, 2)]), (7, [])] = true ∧
    (∃ v, MVT.loadGeometry
      (MVT.encodeCmds [(1, [(3, 4)]), (2, [(1, 2)]), (7, [])]) = Except.ok v) ∧
    MVT.loadGeometry
      (MVT.encodeCmds [(1, [(3, 4)]), (2, [(1, 2)]), (7, [])] ++ 5 :: []) =
      Except.error ("unknown command " ++ toString (5 % 8)) :=
  ⟨by decide,
   C10_unknown_command_fatal.1 _ (by decide),
   C10_unknown_command_fatal.2 _ 5 [] (by decide) (by decide) (by decide) (by decide)⟩

namespace Extrude

theorem min_visible_lt_five : MIN_VISIBLE_HEIGHT < 5 := by
  norm_num [MIN_VISIBLE_HEIGHT]

theorem centi_le_min_visible : (1 : ℚ) / 100 ≤ MIN_VISIBLE_HEIGHT := by
  norm_num [MIN_VISIBLE_HEIGHT]

theorem emitEdge_swap (ts : ℚ) (e : (ℚ × ℚ) × (ℚ × ℚ)) :
    emitEdge ts (Prod.swap e) = emitEdge ts e := by
  obtain ⟨⟨a, b⟩, ⟨c, d⟩⟩ := e
  have h : ∀ u v : ℤ, decide (u - v = 0) = decide (v - u = 0) := by
    intro u v
    exact decide_eq_decide.2 (by omega)
  simp only [emitEdge, Prod.swap, h (jsRound c) (jsRound a), h (jsRound d) (jsRound b),
    Bool.or_comm]

theorem emitStep_vertex_append (ts ext base : ℚ) (st : ExtState)
    (e : (ℚ × ℚ) × (ℚ × ℚ)) :
    ∃ tail, (emitStep ts ext base st e).vertex = st.vertex ++ tail := by
  unfold emitStep
  split
  · exact ⟨_, rfl⟩
  · exact ⟨[], (List.append_nil _).symm⟩

theorem ringEdges_length (v : List ℚ) (s0 m : ℕ) : (ringEdges v s0 m).length = m := by
  simp [ringEdges]

theorem filter_reverse_swap_length (p : ((ℚ × ℚ) × (ℚ × ℚ)) → Bool)
    (hp : ∀ e, p (Prod.swap e) = p e) (l : List ((ℚ × ℚ) × (ℚ × ℚ))) :
    ((l.reverse.map Prod.swap).filter p).length = (l.filter p).length := by
  rw [List.filter_map]
  rw [List.length_map]
  rw [List.filter_reverse, List.length_reverse]
  congr 1
  apply List.filter_congr
  intro e _
  simp [Function.comp, hp]

theorem addExteriorGo_spec (V : List ℚ) (s0 m : ℕ) (ts ext base : ℚ) (cw : Bool)
    (hfit : s0 + 3 * m + 2 ≤ V.length) :
    ∀ (k : ℕ), k ≤ m → ∀ (fuel : ℕ), k ≤ fuel →
    ∀ (st : ExtState) (extra : List ℚ), st.vertex = V ++ extra →
    addExteriorGo s0 (s0 + 3 * m) ts ext base [] fuel (s0 + 3 * (m - k)) none cw 0 st =
      emitFold ts ext base
        (if cw then ((ringEdges V s0 m).take k).reverse.map Prod.swap
         else (ringEdges V s0 m).drop (m - k)) st := by
  intro k
  induction k with
  | zero =>
    intro _ fuel _ st extra hst
    have hfold : emitFold ts ext base
        (if cw then (((ringEdges V s0 m).take 0).reverse.map Prod.swap)
         else (ringEdges V s0 m).drop (m - 0)) st = st := by
      cases cw
      · rw [if_neg (by decide : ¬(false = true)), Nat.sub_zero,
          List.drop_eq_nil_of_le (le_of_eq (ringEdges_length V s0 m))]
        rfl
      · rw [if_pos rfl, List.take_zero]
        rfl
    rw [hfold]
    cases fuel with
    | zero => rfl
    | succ f =>
      simp only [addExteriorGo]
      rw [if_neg (by omega : ¬(s0 + 3 * (m - 0) < s0 + 3 * m))]
  | succ k ih =>
    intro hk1 fuel hfuel st extra hst
    obtain ⟨f, rfl⟩ : ∃ f, fuel = f + 1 := ⟨fuel - 1, by omega⟩
    have hstart : s0 + 3 * (m - (k + 1)) < s0 + 3 * m := by omega
    have hidx : m - (k + 1) < (ringEdges V s0 m).length := by
      rw [ringEdges_length]
      omega
    cases cw with
    | false =>
      have hr1 : (V ++ extra).getD (s0 + 3 * (m - (k + 1))) 0 =
          V.getD (s0 + 3 * (m - (k + 1))) 0 := List.getD_append _ _ _ _ (by omega)
      have hr2 : (V ++ extra).getD (s0 + 3 * (m - (k + 1)) + 1) 0 =
          V.getD (s0 + 3 * (m - (k + 1)) + 1) 0 := List.getD_append _ _ _ _ (by omega)
      have hr3 : (V ++ extra).getD (s0 + 3 * (m - (k + 1)) + 3) 0 =
          V.getD (s0 + 3 * (m - (k + 1)) + 3) 0 := List.getD_append _ _ _ _ (by omega)
      have hr4 : (V ++ extra).getD (s0 + 3 * (m - (k + 1)) + 4) 0 =
          V.getD (s0 + 3 * (m - (k + 1)) + 4) 0 := List.getD_append _ _ _ _ (by omega)
      have hdrop : (ringEdges V s0 m).drop (m - (k + 1)) =
          ((V.getD (s0 + 3 * (m - (k + 1))) 0, V.getD (s0 + 3 * (m - (k + 1)) + 1) 0),
           (V.getD (s0 + 3 * (m - (k + 1)) + 3) 0, V.getD (s0 + 3 * (m - (k + 1)) + 4) 0)) ::
          (ringEdges V s0 m).drop (m - k) := by
        rw [List.drop_eq_getElem_cons hidx]
        congr 1
        · simp [ringEdges]
        · congr 1
          omega
      simp only [addExteriorGo]
      rw [if_pos hstart]
      simp only [Bool.false_eq_true, if_false, hst, hr1, hr2, hr3, hr4]
      rw [if_neg (by simp : ¬((none : Option ℤ) =
        some ((s0 + 3 * (m - (k + 1)) : ℕ) : ℤ)))]
      rw [hdrop]
      simp only [emitFold, List.foldl_cons]
      obtain ⟨tail, htail⟩ := emitStep_vertex_append ts ext base st
        ((V.getD (s0 + 3 * (m - (k + 1))) 0, V.getD (s0 + 3 * (m - (k + 1)) + 1) 0),
         (V.getD (s0 + 3 * (m - (k + 1)) + 3) 0, V.getD (s0 + 3 * (m - (k + 1)) + 4) 0))
      have hre := ih (by omega) f (by omega) _ (extra ++ tail)
        (by rw [htail, hst, List.append_assoc])
      simp only [emitFold, Bool.false_eq_true, if_false] at hre
      rw [show s0 + 3 * (m - (k + 1)) + 3 = s0 + 3 * (m - k) from by omega] at hre ⊢
      convert hre using 2
    | true =>
      have hr1 : (V ++ extra).getD (s0 + 3 * k + 3) 0 =
          V.getD (s0 + 3 * k + 3) 0 := List.getD_append _ _ _ _ (by omega)
      have hr2 : (V ++ extra).getD (s0 + 3 * k + 4) 0 =
          V.getD (s0 + 3 * k + 4) 0 := List.getD_append _ _ _ _ (by omega)
      have hr3 : (V ++ extra).getD (s0 + 3 * k) 0 =
          V.getD (s0 + 3 * k) 0 := List.getD_append _ _ _ _ (by omega)
      have hr4 : (V ++ extra).getD (s0 + 3 * k + 1) 0 =
          V.getD (s0 + 3 * k + 1) 0 := List.getD_append _ _ _ _ (by omega)
      have htake : (ringEdges V s0 m).take (k + 1) = (ringEdges V s0 m).take k ++
          [((V.getD (s0 + 3 * k) 0, V.getD (s0 + 3 * k + 1) 0),
            (V.getD (s0 + 3 * k + 3) 0, V.getD (s0 + 3 * k + 4) 0))] := by
        rw [List.take_succ, List.getElem?_eq_getElem (by rw [ringEdges_length]; omega)]
        congr 1
        simp [ringEdges]
      have hi2 : s0 + (s0 + 3 * m) - (s0 + 3 * (m - (k + 1))) + 1 = s0 + 3 * k + 4 := by
        omega
      have hi3 : s0 + (s0 + 3 * m) - (s0 + 3 * (m - (k + 1))) - 3 = s0 + 3 * k := by
        omega
      have hi4 : s0 + (s0 + 3 * m) - (s0 + 3 * (m - (k + 1))) - 2 = s0 + 3 * k + 1 := by
        omega
      have hi1 : s0 + (s0 + 3 * m) - (s0 + 3 * (m - (k + 1))) = s0 + 3 * k + 3 := by
        omega
      simp only [addExteriorGo]
      rw [if_pos hstart]
      simp only [if_true, hst]
      rw [hi2, hi3, hi4, hi1]
      simp only [hr1, hr2, hr3, hr4]
      rw [if_neg (by simp : ¬((none : Option ℤ) =
        some ((s0 + 3 * (m - (k + 1)) : ℕ) : ℤ)))]
      rw [htake]
      simp only [List.reverse_append, List.reverse_singleton, List.singleton_append,
        List.map_cons, Prod.swap_prod_mk]
      simp only [emitFold, List.foldl_cons]
      obtain ⟨tail, htail⟩ := emitStep_vertex_append ts ext base st
        ((V.getD (s0 + 3 * k + 3) 0, V.getD (s0 + 3 * k + 4) 0),
         (V.getD (s0 + 3 * k) 0, V.getD (s0 + 3 * k + 1) 0))
      have hre := ih (by omega) f (by omega) _ (extra ++ tail)
        (by rw [htail, hst, List.append_assoc])
      simp only [emitFold, if_true] at hre
      rw [show s0 + 3 * (m - (k + 1)) + 3 = s0 + 3 * (m - k) from by omega]
      convert hre using 2

theorem emitFold_spec (ts ext base : ℚ) :
    ∀ (es : List ((ℚ × ℚ) × (ℚ × ℚ))) (st : ExtState), 3 ∣ st.vertex.length →
    (emitFold ts ext base es st).vertex =
        st.vertex ++ wallVerts ext base (es.filter (emitEdge ts)) ∧
    (emitFold ts ext base es st).vIndex =
        st.vIndex ++ wallIndices (st.vertex.length / 3) ((es.filter (emitEdge ts)).length) ∧
    (emitFold ts ext base es st).normals.length =
        st.normals.length + 4 * (es.filter (emitEdge ts)).length := by
  intro es
  induction es with
  | nil =>
    intro st h3
    refine ⟨?_, ?_, ?_⟩ <;> simp [emitFold, wallVerts, wallIndices]
  | cons e tl ih =>
    intro st h3
    cases hcond : emitEdge ts e with
    | false =>
      have hstep : emitStep ts ext base st e = st := by
        simp [emitStep, hcond]
      have hfold : emitFold ts ext base (e :: tl) st = emitFold ts ext base tl st := by
        simp only [emitFold, List.foldl_cons, hstep]
      have hfilter : (e :: tl).filter (emitEdge ts) = tl.filter (emitEdge ts) := by
        simp [List.filter_cons, hcond]
      rw [hfold, hfilter]
      exact ih st h3
    | true =>
      have hstep : emitStep ts ext base st e =
          pushWall st e.1.1 e.1.2 e.2.1 e.2.2 ext base
            (jsRound e.1.1 - jsRound e.2.1) (jsRound e.1.2 - jsRound e.2.2) := by
        simp [emitStep, hcond]
      have hfold : emitFold ts ext base (e :: tl) st =
          emitFold ts ext base tl (emitStep ts ext base st e) := by
        simp only [emitFold, List.foldl_cons]
      have hfilter : (e :: tl).filter (emitEdge ts) = e :: tl.filter (emitEdge ts) := by
        simp [List.filter_cons, hcond]
      have hlen : (emitStep ts ext base st e).vertex.length = st.vertex.length + 12 := by
        rw [hstep]
        simp [pushWall]
      have h3' : 3 ∣ (emitStep ts ext base st e).vertex.length := by
        rw [hlen]
        omega
      obtain ⟨ihv, ihi, ihn⟩ := ih (emitStep ts ext base st e) h3'
      refine ⟨?_, ?_, ?_⟩
      · rw [hfold, ihv, hfilter, hstep]
        simp only [pushWall, wallVerts, List.flatMap_cons, List.append_assoc]
      · rw [hfold, ihi, hfilter, hstep]
        have hdiv : (st.vertex.length + 12) / 3 = st.vertex.length / 3 + 4 := by
          omega
        simp only [pushWall, List.length_append, List.length_cons, List.length_nil]
        norm_num
        rw [hdiv]
        simp only [wallIndices, List.append_assoc, List.cons_append, List.nil_append]
      · rw [hfold, ihn, hfilter, hstep]
        simp only [pushWall, List.length_append, List.length_cons, List.length_nil]
        ring

end Extrude

/-- C9: extrusion wall emission condition. addExtrude emits side-wall geometry
only when the extrusion height exceeds MIN_VISIBLE_HEIGHT = 0.01: at or below
the threshold the result is exactly the top-surface data (vertices of
addPolygon, fake top normals, untouched index lists). Above the threshold, for
a single exterior ring without holes, a wall segment is emitted for exactly
those ring edges that satisfy the emission test (rounded integer endpoint
coordinates differ, and at least one endpoint lies within the tile pixel
bounds), each segment contributing 4 wall vertices (12 floats), 4 normals and
6 triangle indices; the traversal is the ring itself or its endpoint-swapped
reverse depending on winding, with the same set of qualifying edges. -/
theorem C9_extrude_wall_emission :
    (∀ (vertex : List ℚ) (normals : List (ℤ × ℤ)) (vIndex : List ℕ)
       (strokeIndex : Option (List ℕ)) (tileSize extrude extrudeBase : ℚ)
       (polyData : List ℚ) (flats : List Extrude.FlatPolygon),
       extrude ≤ Extrude.MIN_VISIBLE_HEIGHT →
       Extrude.addExtrude vertex normals vIndex strokeIndex tileSize extrude
           extrudeBase polyData flats =
         { vertex := vertex ++ polyData
           normals := normals ++
             List.replicate ((polyData.length + 2) / 3) ((0 : ℤ), (0 : ℤ))
           vIndex := vIndex
           strokeIndex := strokeIndex }) ∧
    (∀ (vertex : List ℚ) (normals : List (ℤ × ℤ)) (vIndex : List ℕ)
       (strokeIndex : Option (List ℕ)) (tileSize extrude extrudeBase : ℚ)
       (polyData : List ℚ) (s0 m : ℕ),
       Extrude.MIN_VISIBLE_HEIGHT < extrude →
       s0 + 3 * m + 2 ≤ (vertex ++ polyData).length →
       3 ∣ (vertex ++ polyData).length →
       ∃ tr, (tr = Extrude.ringEdges (vertex ++ polyData) s0 m ∨
              tr = ((Extrude.ringEdges (vertex ++ polyData) s0 m).reverse.map
                Prod.swap)) ∧
         (tr.filter (Extrude.emitEdge tileSize)).length =
           ((Extrude.ringEdges (vertex ++ polyData) s0 m).filter
             (Extrude.emitEdge tileSize)).length ∧
         (Extrude.addExtrude vertex normals vIndex strokeIndex tileSize extrude
             extrudeBase polyData [⟨s0, s0 + 3 * m + 3, []⟩]).vertex =
           (vertex ++ polyData) ++ Extrude.wallVerts extrude extrudeBase
             (tr.filter (Extrude.emitEdge tileSize)) ∧
         (Extrude.addExtrude vertex normals vIndex strokeIndex tileSize extrude
             extrudeBase polyData [⟨s0, s0 + 3 * m + 3, []⟩]).vIndex =
           vIndex ++ Extrude.wallIndices ((vertex ++ polyData).length / 3)
             ((tr.filter (Extrude.emitEdge tileSize)).length) ∧
         (Extrude.addExtrude vertex normals vIndex strokeIndex tileSize extrude
             extrudeBase polyData [⟨s0, s0 + 3 * m + 3, []⟩]).normals.length =
           normals.length + (polyData.length + 2) / 3 +
             4 * (tr.filter (Extrude.emitEdge tileSize)).length) := by
  constructor
  · intro vertex normals vIndex strokeIndex tileSize extrude extrudeBase polyData
      flats hle
    simp only [Extrude.addExtrude]
    rw [if_neg (not_lt.2 hle)]
  · intro vertex normals vIndex strokeIndex tileSize extrude extrudeBase polyData
      s0 m hlt hfit h3
    have hgo : Extrude.addExtrude vertex normals vIndex strokeIndex tileSize extrude
        extrudeBase polyData [⟨s0, s0 + 3 * m + 3, []⟩] =
        Extrude.addExteriorGo s0 (s0 + 3 * m) tileSize extrude extrudeBase []
          (s0 + 3 * m) s0 none
          (decide (0 ≤ Extrude.signedArea (vertex ++ polyData) s0 (s0 + 3 * m))) 0
          { vertex := vertex ++ polyData
            normals := normals ++
              List.replicate ((polyData.length + 2) / 3) ((0 : ℤ), (0 : ℤ))
            vIndex := vIndex
            strokeIndex := strokeIndex } := by
      simp only [Extrude.addExtrude]
      rw [if_pos hlt]
      simp only [List.foldl_cons, List.foldl_nil, Extrude.addExterior]
      simp only [show s0 + 3 * m + 3 - 3 = s0 + 3 * m from by omega]
      rfl
    have hspec := Extrude.addExteriorGo_spec (vertex ++ polyData) s0 m tileSize
      extrude extrudeBase
      (decide (0 ≤ Extrude.signedArea (vertex ++ polyData) s0 (s0 + 3 * m)))
      hfit m le_rfl (s0 + 3 * m) (by omega)
      { vertex := vertex ++ polyData
        normals := normals ++
          List.replicate ((polyData.length + 2) / 3) ((0 : ℤ), (0 : ℤ))
        vIndex := vIndex
        strokeIndex := strokeIndex } [] (by simp)
    rw [show m - m = 0 from by omega] at hspec
    simp only [Nat.mul_zero, Nat.add_zero, List.drop_zero] at hspec
    rw [hgo, hspec]
    cases hcw : decide (0 ≤ Extrude.signedArea (vertex ++ polyData) s0 (s0 + 3 * m)) with
    | false =>
      refine ⟨Extrude.ringEdges (vertex ++ polyData) s0 m, Or.inl rfl, rfl, ?_⟩
      rw [if_neg (by simp)]
      have := Extrude.emitFold_spec tileSize extrude extrudeBase
        (Extrude.ringEdges (vertex ++ polyData) s0 m)
        { vertex := vertex ++ polyData
          normals := normals ++
            List.replicate ((polyData.length + 2) / 3) ((0 : ℤ), (0 : ℤ))
          vIndex := vIndex
          strokeIndex := strokeIndex } h3
      refine ⟨this.1, this.2.1, ?_⟩
      rw [this.2.2]
      simp [Nat.add_assoc]
    | true =>
      refine ⟨(Extrude.ringEdges (vertex ++ polyData) s0 m).reverse.map Prod.swap,
        Or.inr rfl,
        Extrude.filter_reverse_swap_length _ (Extrude.emitEdge_swap tileSize) _, ?_⟩
      rw [if_pos rfl]
      rw [List.take_of_length_le (le_of_eq (Extrude.ringEdges_length _ s0 m))]
      have := Extrude.emitFold_spec tileSize extrude extrudeBase
        ((Extrude.ringEdges (vertex ++ polyData) s0 m).reverse.map Prod.swap)
        { vertex := vertex ++ polyData
          normals := normals ++
            List.replicate ((polyData.length + 2) / 3) ((0 : ℤ), (0 : ℤ))
          vIndex := vIndex
          strokeIndex := strokeIndex } h3
      refine ⟨this.1, this.2.1, ?_⟩
      rw [this.2.2]
      simp [Nat.add_assoc]

theorem C9_extrude_wall_emission_witness :
    (Extrude.addExtrude [] [] [] none 512 (1 / 100) 0
        ([0, 0, 1 / 100, 10, 0, 1 / 100] : List ℚ) [] =
      { vertex := [] ++ ([0, 0, 1 / 100, 10, 0, 1 / 100] : List ℚ)
        normals := [] ++ List.replicate
          ((([0, 0, 1 / 100, 10, 0, 1 / 100] : List ℚ).length + 2) / 3)
          ((0 : ℤ), (0 : ℤ))
        vIndex := []
        strokeIndex := none }) ∧
    (∃ tr, (tr = Extrude.ringEdges
            ([] ++ ([0, 0, 5, 10, 0, 5, 10, 10, 5, 0, 10, 5, 0, 0, 5] : List ℚ)) 0 4 ∨
           tr = ((Extrude.ringEdges
            ([] ++ ([0, 0, 5, 10, 0, 5, 10, 10, 5, 0, 10, 5, 0, 0, 5] : List ℚ))
              0 4).reverse.map Prod.swap)) ∧
      (tr.filter (Extrude.emitEdge 512)).length =
        ((Extrude.ringEdges
          ([] ++ ([0, 0, 5, 10, 0, 5, 10, 10, 5, 0, 10, 5, 0, 0, 5] : List ℚ))
            0 4).filter (Extrude.emitEdge 512)).length ∧
      (Extrude.addExtrude [] [] [] none 512 5 0
          ([0, 0, 5, 10, 0, 5, 10, 10, 5, 0, 10, 5, 0, 0, 5] : List ℚ)
          [⟨0, 0 + 3 * 4 + 3, []⟩]).vertex =
        ([] ++ ([0, 0, 5, 10, 0, 5, 10, 10, 5, 0, 10, 5, 0, 0, 5] : List ℚ)) ++
          Extrude.wallVerts 5 0 (tr.filter (Extrude.emitEdge 512)) ∧
      (Extrude.addExtrude [] [] [] none 512 5 0
          ([0, 0, 5, 10, 0, 5, 10, 10, 5, 0, 10, 5, 0, 0, 5] : List ℚ)
          [⟨0, 0 + 3 * 4 + 3, []⟩]).vIndex =
        [] ++ Extrude.wallIndices
          ((([] ++ ([0, 0, 5, 10, 0, 5, 10, 10, 5, 0, 10, 5, 0, 0, 5] : List ℚ)).length) / 3)
          ((tr.filter (Extrude.emitEdge 512)).length) ∧
      (Extrude.addExtrude [] [] [] none 512 5 0
          ([0, 0, 5, 10, 0, 5, 10, 10, 5, 0, 10, 5, 0, 0, 5] : List ℚ)
          [⟨0, 0 + 3 * 4 + 3, []⟩]).normals.length =
        ([] : List (ℤ × ℤ)).length +
          (([0, 0, 5, 10, 0, 5, 10, 10, 5, 0, 10, 5, 0, 0, 5] : List ℚ).length + 2) / 3 +
          4 * (tr.filter (Extrude.emitEdge 512)).length) :=
  ⟨C9_extrude_wall_emission.1 [] [] [] none 512 (1 / 100) 0
      ([0, 0, 1 / 100, 10, 0, 1 / 100] : List ℚ) [] Extrude.centi_le_min_visible,
   C9_extrude_wall_emission.2 [] [] [] none 512 5 0
      ([0, 0, 5, 10, 0, 5, 10, 10, 5, 0, 10, 5, 0, 0, 5] : List ℚ) 0 4
      Extrude.min_visible_lt_five (by decide) (by decide)⟩

end XyzMaps
